import Mathlib

/-!
# Connection pool of `mongoPool/mongoPool.go`

A shallow embedding of the `MongoPool` type and its methods, followed by
theorems about them.

Modelling conventions.

* A `*mongo.Client` is a `ClientPtr`: the nil pointer or a reference to a
  client object, named by a number.  Go's `==` on pointers is identity, which
  is the derived decidable equality here.
* The MongoDB driver and the clock are outside the repository.  Everything a
  method obtains from them during one call is gathered in a `Driver` value that
  the method takes as an argument: the result of `mongo.NewClient`, of
  `Connect`, of `Ping` on each client object, and of `time.Now`.  Successive
  calls may be given different `Driver` values.
* The method `Ping` called on a nil `*mongo.Client` does not return: the
  driver dereferences the pointer and the call panics.  The scans of the pool
  (lines 110, 132, 144) probe every entry without a nil test, so a scan that
  meets a nil entry ends in a panic there.  The deferred `Disconnect` of line
  181 panics likewise for a nil argument, after the loop has run.  The results
  of these methods carry the flag `panicked`; the pool they record is the pool
  the call leaves behind, returned or not.
* Every method returns, besides its Go results, the pool after the call and the
  list of driver calls it issued, in order.
* Go's `int` is taken to be 64 bits wide: `poolSize++` and `poolSize--` are
  computed on `Int` and then reduced with `wrapInt`.
* The package `constants` is not part of the source tree; its three constants
  are the fields of the parameter `Constants`.
-/

namespace MongoPoolModel

/-! ## Machine integers -/

/-- Two to the 63: one more than the largest 64-bit `int`. -/
def intLimit : Int := 9223372036854775808

/-- Reduction of an integer to the 64-bit two's complement range, the result of
Go's `int` arithmetic on a 64-bit platform. -/
def wrapInt (x : Int) : Int :=
  (x + 9223372036854775808) % 18446744073709551616 - 9223372036854775808

/-- The values of Go's 64-bit `int`. -/
def IsGoInt (x : Int) : Prop := -9223372036854775808 ≤ x ∧ x < 9223372036854775808

instance (x : Int) : Decidable (IsGoInt x) := by
  unfold IsGoInt
  exact inferInstance

/-! ## Data model -/

/-- A value of type `*mongo.Client`. -/
inductive ClientPtr where
  | nil : ClientPtr
  | ref (id : Nat) : ClientPtr
  deriving DecidableEq, Repr

/-- The struct `MongoPoolError` (lines 16-19); `When` is a `time.Time`, kept
as a number. -/
structure MongoPoolError where
  When : Nat
  What : String
  deriving DecidableEq, Repr

/-- An error produced by the driver.  The driver is a separate module that
cannot name the type `MongoPoolError` of this package, so its errors are a
type of their own. -/
structure DriverError where
  code : Nat
  deriving DecidableEq, Repr

/-- A non-nil value of the interface type `error` as it occurs in this
package: a `*MongoPoolError` built here, or an error handed over by the
driver.  The nil error is `none` in `Option GoError`. -/
inductive GoError where
  | mongoPool (e : MongoPoolError) : GoError
  | driver (e : DriverError) : GoError
  deriving DecidableEq, Repr

/-- The constants imported from the package `constants`. -/
structure Constants where
  DefaultDBPoolSize : Int
  DBUrl : String
  DBName : String
  deriving DecidableEq, Repr

/-- What the driver and the clock answer during one method call. -/
structure Driver where
  /-- The result of `conn.Ping(ctx, readpref.Primary())` on the client object
  with the given number: `none` is a nil error.  There is no answer for the nil
  pointer: that call panics. -/
  ping : Nat → Option DriverError
  /-- The result pair of `mongo.NewClient(...)`: with a nil error the driver
  hands over a newly built client. -/
  newClient : ClientPtr × Option DriverError
  /-- The result of `conn.Connect(ctx)`. -/
  connect : ClientPtr → Option DriverError
  /-- The result of `time.Now()`. -/
  now : Nat

/-- A call made to the driver. -/
inductive DriverCall where
  | ping (c : ClientPtr) : DriverCall
  | newClient : DriverCall
  | connect (c : ClientPtr) : DriverCall
  | disconnect (c : ClientPtr) : DriverCall
  deriving DecidableEq, Repr

/-- The struct `MongoPool` (lines 44-52).  `timeout` is a `time.Duration`, a
number of nanoseconds. -/
structure MongoPool where
  name : String
  pool : List ClientPtr
  minConn : Int
  maxConn : Int
  raiseErrorOnBusy : Bool
  poolSize : Int
  timeout : Int
  deriving DecidableEq, Repr

/-- The value of `new(MongoPool)`: every field is the zero value of its type. -/
def MongoPool.new : MongoPool :=
  { name := "", pool := [], minConn := 0, maxConn := 0,
    raiseErrorOnBusy := false, poolSize := 0, timeout := 0 }

/-- The constant `time.Second`, in nanoseconds. -/
def timeSecond : Int := 1000000000

/-! ## Methods -/

/-- Method `Init` (lines 55-61): five assignments; `pool` and `minConn` are not
assigned. -/
def MongoPool.Init (k : Constants) (mp : MongoPool) (name : String) : MongoPool :=
  { mp with
    poolSize := k.DefaultDBPoolSize
    maxConn := k.DefaultDBPoolSize
    name := name
    raiseErrorOnBusy := false
    timeout := timeSecond * 60 * 5 }

/-- Whether the liveness probe of an entry succeeds: the entry is a client
object and `Ping` on it returns a nil error.  A nil entry never passes. -/
def Driver.passes (d : Driver) : ClientPtr → Bool
  | ClientPtr.nil => false
  | ClientPtr.ref n => (d.ping n).isNone

/-- What a scan by `GetOpenConnections` ends with: the slice `conns` (returned
when the scan completes; the slice built so far when it panics), whether the
scan panicked, and the driver calls made, the panicking one included. -/
structure ScanResult where
  conns : List ClientPtr
  panicked : Bool
  calls : List DriverCall
  deriving DecidableEq, Repr

/-- The loop of `GetOpenConnections` (lines 143-148): the first list is what
remains of `mp.pool`, `conns` is the slice built so far, `calls` the driver
calls made so far.  Line 144 calls `Ping` on the entry, which panics when the
entry is nil. -/
def GetOpenConnections.loop (d : Driver) :
    List ClientPtr → List ClientPtr → List DriverCall → ScanResult
  | [], conns, calls => { conns := conns, panicked := false, calls := calls }
  | ClientPtr.nil :: _, conns, calls =>
    { conns := conns, panicked := true, calls := calls ++ [DriverCall.ping ClientPtr.nil] }
  | ClientPtr.ref n :: rest, conns, calls =>
    match d.ping n with
    | none =>
      GetOpenConnections.loop d rest (conns ++ [ClientPtr.ref n])
        (calls ++ [DriverCall.ping (ClientPtr.ref n)])
    | some _ =>
      GetOpenConnections.loop d rest conns (calls ++ [DriverCall.ping (ClientPtr.ref n)])

/-- Method `GetOpenConnections` (lines 141-150). -/
def MongoPool.GetOpenConnections (d : Driver) (mp : MongoPool) : ScanResult :=
  GetOpenConnections.loop d mp.pool [] []

/-- What `CreateConnection` ends with: the two named results `c` and `e` (the
values returned, or, when the call panics, their values at that moment), the
pool after the call, the driver calls made, and whether the call panicked
instead of returning. -/
structure CreateResult where
  conn : ClientPtr
  err : Option GoError
  mp : MongoPool
  calls : List DriverCall
  panicked : Bool
  deriving DecidableEq, Repr

/-- Method `CreateConnection` (lines 69-95).  The named result `c` is nil until
the `return` statements assign it; line 88 appends `c`.  A panic of the scan of
line 70 ends the call before any other statement. -/
def MongoPool.CreateConnection (d : Driver) (mp : MongoPool) : CreateResult :=
  let scan := mp.GetOpenConnections d
  let c : ClientPtr := ClientPtr.nil
  if scan.panicked then
    { conn := c, err := none, mp := mp, calls := scan.calls, panicked := true }
  else
    match scan.conns with
    | [] =>
      if mp.raiseErrorOnBusy then
        { conn := ClientPtr.nil
          err := some (GoError.mongoPool { When := d.now, What := "All connections are busy" })
          mp := mp
          calls := scan.calls
          panicked := false }
      else
        match d.newClient with
        | (_, some e) =>
          { conn := ClientPtr.nil, err := some (GoError.driver e), mp := mp,
            calls := scan.calls ++ [DriverCall.newClient], panicked := false }
        | (conn, none) =>
          match d.connect conn with
          | some e =>
            { conn := ClientPtr.nil, err := some (GoError.driver e), mp := mp,
              calls := scan.calls ++ [DriverCall.newClient, DriverCall.connect conn],
              panicked := false }
          | none =>
            if mp.poolSize > 0 then
              { conn := conn, err := none
                mp := { mp with pool := mp.pool ++ [c], poolSize := wrapInt (mp.poolSize - 1) }
                calls := scan.calls ++ [DriverCall.newClient, DriverCall.connect conn]
                panicked := false }
            else
              { conn := conn, err := none, mp := mp,
                calls := scan.calls ++ [DriverCall.newClient, DriverCall.connect conn],
                panicked := false }
    | first :: _ =>
      { conn := first, err := none, mp := mp, calls := scan.calls, panicked := false }

/-- What a count ends with: the counter `c` (returned when the scan completes;
its value so far when the scan panics) and whether the scan panicked. -/
structure CountResult where
  count : Int
  panicked : Bool
  deriving DecidableEq, Repr

/-- The loop of `GetBusyConnectionsCount` (lines 109-114): `Ping` on each
entry, which panics on a nil entry; `c++` when the error is not nil. -/
def GetBusyConnectionsCount.loop (d : Driver) : List ClientPtr → Int → CountResult
  | [], c => { count := c, panicked := false }
  | ClientPtr.nil :: _, c => { count := c, panicked := true }
  | ClientPtr.ref n :: rest, c =>
    match d.ping n with
    | some _ => GetBusyConnectionsCount.loop d rest (wrapInt (c + 1))
    | none => GetBusyConnectionsCount.loop d rest c

/-- Method `GetBusyConnectionsCount` (lines 107-116). -/
def MongoPool.GetBusyConnectionsCount (d : Driver) (mp : MongoPool) : CountResult :=
  GetBusyConnectionsCount.loop d mp.pool 0

/-- The loop of `GetOpenConnectionsCount` (lines 131-136): `Ping` on each
entry, which panics on a nil entry; `c++` when the error is nil. -/
def GetOpenConnectionsCount.loop (d : Driver) : List ClientPtr → Int → CountResult
  | [], c => { count := c, panicked := false }
  | ClientPtr.nil :: _, c => { count := c, panicked := true }
  | ClientPtr.ref n :: rest, c =>
    match d.ping n with
    | none => GetOpenConnectionsCount.loop d rest (wrapInt (c + 1))
    | some _ => GetOpenConnectionsCount.loop d rest c

/-- Method `GetOpenConnectionsCount` (lines 129-138). -/
def MongoPool.GetOpenConnectionsCount (d : Driver) (mp : MongoPool) : CountResult :=
  GetOpenConnectionsCount.loop d mp.pool 0

/-- Method `GetMaxConnections` (lines 119-121). -/
def MongoPool.GetMaxConnections (mp : MongoPool) : Int := mp.maxConn

/-- Method `GetMinConnections` (lines 124-126). -/
def MongoPool.GetMinConnections (mp : MongoPool) : Int := mp.minConn

/-- Method `GetPoolName` (lines 153-155). -/
def MongoPool.GetPoolName (mp : MongoPool) : String := mp.name

/-- Method `GetTimeOut` (lines 158-160). -/
def MongoPool.GetTimeOut (mp : MongoPool) : Int := mp.timeout

/-- Method `SetErrorOnBusy` (lines 163-165). -/
def MongoPool.SetErrorOnBusy (mp : MongoPool) : MongoPool :=
  { mp with raiseErrorOnBusy := true }

/-- Method `SetPoolSize` (lines 168-170): the body is empty. -/
def MongoPool.SetPoolSize (mp : MongoPool) (_minConn _maxConn : Nat) : MongoPool := mp

/-- The loop of `TerminateConnection` (lines 174-180): `i` is the index of the
next element and the list argument holds the elements from index `i` on.  At
the first element equal to `conn` the pool becomes `pool[:i]` followed by
`pool[i+1:]`, `poolSize` is incremented and the loop is left. -/
def TerminateConnection.loop (conn : ClientPtr) (mp : MongoPool) : Nat → List ClientPtr → MongoPool
  | _, [] => mp
  | i, v :: rest =>
    if v = conn then
      { mp with
        pool := mp.pool.take i ++ mp.pool.drop (i + 1)
        poolSize := wrapInt (mp.poolSize + 1) }
    else TerminateConnection.loop conn mp (i + 1) rest

/-- What `TerminateConnection` leaves behind: the pool after the call, the
driver calls made, and whether the call panicked instead of returning. -/
structure TerminateResult where
  mp : MongoPool
  calls : List DriverCall
  panicked : Bool
  deriving DecidableEq, Repr

/-- Method `TerminateConnection` (lines 173-182): the loop, then the deferred
`conn.Disconnect(nil)` when the method returns.  For a nil `conn` that deferred
call panics inside the driver; the loop has run by then, and the result
records the pool it left and the call issued. -/
def MongoPool.TerminateConnection (mp : MongoPool) (conn : ClientPtr) : TerminateResult :=
  { mp := TerminateConnection.loop conn mp 0 mp.pool
    calls := [DriverCall.disconnect conn]
    panicked := decide (conn = ClientPtr.nil) }

/-! ## Sequences of calls -/

/-- One call of a state-changing method of the pool, with its arguments and,
for `CreateConnection`, the answers of the driver during that call. -/
inductive Op where
  | createConnection (d : Driver) : Op
  | terminateConnection (conn : ClientPtr) : Op
  | setErrorOnBusy : Op
  | setPoolSize (minConn maxConn : Nat) : Op

/-- The pool after one call, whether the call returned or panicked. -/
def Op.step (mp : MongoPool) : Op → MongoPool
  | Op.createConnection d => (mp.CreateConnection d).mp
  | Op.terminateConnection conn => (mp.TerminateConnection conn).mp
  | Op.setErrorOnBusy => mp.SetErrorOnBusy
  | Op.setPoolSize a b => mp.SetPoolSize a b

/-- The pool after a finite sequence of calls, leftmost first. -/
def runOps (mp : MongoPool) (ops : List Op) : MongoPool :=
  ops.foldl Op.step mp

/-- The pool after `Init(name)` on a newly allocated pool followed by the
calls `ops`. -/
def poolAfter (k : Constants) (name : String) (ops : List Op) : MongoPool :=
  runOps (MongoPool.Init k MongoPool.new name) ops

/-- The capacity accounting of a pool initialised with the constants `k`:
`maxConn` is the default size, `poolSize` and the number of entries add up to
it, `poolSize` is an `int` value, and it is not negative when the default size
is not. -/
def CapacityInv (k : Constants) (mp : MongoPool) : Prop :=
  mp.maxConn = k.DefaultDBPoolSize ∧
  mp.poolSize + mp.pool.length = mp.maxConn ∧
  IsGoInt mp.poolSize ∧
  (0 ≤ k.DefaultDBPoolSize → 0 ≤ mp.poolSize)

/-! ## Database and collection access, the factory -/

/-- A value of type `*mongo.Database` as `conn.Database(name)` builds it: the
client it belongs to and the database name. -/
structure Database where
  client : ClientPtr
  name : String
  deriving DecidableEq, Repr

/-- A value of type `*mongo.Collection` as `db.Collection(name)` builds it. -/
structure Collection where
  db : Database
  name : String
  deriving DecidableEq, Repr

/-- What `GetDatabase` ends with: the two Go results (`none` for a nil
pointer or a nil error; both `none` when the call panics), the pool after the
call, the driver calls made, and whether the call panicked instead of
returning. -/
structure GetDatabaseResult where
  db : Option Database
  err : Option GoError
  mp : MongoPool
  calls : List DriverCall
  panicked : Bool
  deriving DecidableEq, Repr

/-- Method `GetDatabase` (lines 98-104).  A panic of `CreateConnection` ends
the call at line 99. -/
def MongoPool.GetDatabase (k : Constants) (d : Driver) (mp : MongoPool) : GetDatabaseResult :=
  let r := mp.CreateConnection d
  if r.panicked then
    { db := none, err := none, mp := r.mp, calls := r.calls, panicked := true }
  else
    match r.err with
    | some err => { db := none, err := some err, mp := r.mp, calls := r.calls, panicked := false }
    | none =>
      { db := some { client := r.conn, name := k.DBName }, err := none, mp := r.mp,
        calls := r.calls, panicked := false }

/-- The pool objects allocated so far: the pool at address `i` is the `i`-th
element.  `new(MongoPool)` extends the list by one zero-valued pool, whose
address is the previous length. -/
abbrev Heap := List MongoPool

/-- Function `GetMongoPool` (lines 185-192): the address of the pool returned
and the heap after the call.  With no name given, `name` becomes `["root"]`, so
`name[0]` is "root"; otherwise `name[0]` is the first name given. -/
def GetMongoPool (k : Constants) (heap : Heap) (name : List String) : Nat × Heap :=
  let mp := heap.length
  let heap1 := heap ++ [MongoPool.new]
  let name0 : String :=
    match name with
    | [] => "root"
    | first :: _ => first
  (mp, heap1.set mp (MongoPool.Init k (heap1.getD mp MongoPool.new) name0))

/-- The argument of `GetCollection`, a value of type `interface{}`: a string,
a value of another type, of which only `reflect.TypeOf(model).Name()` matters,
or the nil interface value. -/
inductive Model where
  | str (s : String) : Model
  | typed (typeName : String) : Model
  | nilValue : Model
  deriving DecidableEq, Repr

/-- How a call of `GetCollection` ends: it returns its two results, or it
panics (in `GetDatabase`, or at line 204: `reflect.TypeOf(nil)` is nil, and
`Name()` is called on it). -/
inductive GetCollectionEnd where
  | returned (coll : Option Collection) (err : Option GoError) : GetCollectionEnd
  | panicked : GetCollectionEnd
  deriving DecidableEq, Repr

/-- What `GetCollection` leaves behind: how it ended, the heap after the call
and the driver calls made. -/
structure GetCollectionResult where
  ending : GetCollectionEnd
  heap : Heap
  calls : List DriverCall
  deriving DecidableEq, Repr

/-- Function `GetCollection` (lines 195-205).  When `GetDatabase` panics it
has produced neither a database nor an error. -/
def GetCollection (k : Constants) (d : Driver) (heap : Heap) (model : Model) :
    GetCollectionResult :=
  let (mp, heap1) := GetMongoPool k heap []
  let r := (heap1.getD mp MongoPool.new).GetDatabase k d
  let heap2 := heap1.set mp r.mp
  match r.err, r.db with
  | some err, _ =>
    { ending := GetCollectionEnd.returned none (some err), heap := heap2, calls := r.calls }
  | none, none =>
    { ending := GetCollectionEnd.panicked, heap := heap2, calls := r.calls }
  | none, some db =>
    match model with
    | Model.str modelString =>
      { ending := GetCollectionEnd.returned (some { db := db, name := modelString }) none
        heap := heap2, calls := r.calls }
    | Model.typed typeName =>
      { ending := GetCollectionEnd.returned (some { db := db, name := typeName }) none
        heap := heap2, calls := r.calls }
    | Model.nilValue =>
      { ending := GetCollectionEnd.panicked, heap := heap2, calls := r.calls }

/-! ## The public interface -/

/-- One call of a method of the interface `IMongoPool` (lines 27-41), with its
arguments and, for the methods that reach the driver, the driver's answers
during that call. -/
inductive PublicOp where
  | init (name : String) : PublicOp
  | createConnection (d : Driver) : PublicOp
  | getDatabase (d : Driver) : PublicOp
  | getBusyConnectionsCount (d : Driver) : PublicOp
  | getMaxConnections : PublicOp
  | getMinConnections : PublicOp
  | getOpenConnections (d : Driver) : PublicOp
  | getOpenConnectionsCount (d : Driver) : PublicOp
  | getPoolName : PublicOp
  | getTimeOut : PublicOp
  | setErrorOnBusy : PublicOp
  | setPoolSize (minConn maxConn : Nat) : PublicOp
  | terminateConnection (conn : ClientPtr) : PublicOp

/-- The pool after one call of an interface method, whether the call returned
or panicked.  The accessors, the scan `GetOpenConnections` and the two counts
assign no field. -/
def PublicOp.step (k : Constants) (mp : MongoPool) : PublicOp → MongoPool
  | PublicOp.init name => MongoPool.Init k mp name
  | PublicOp.createConnection d => (mp.CreateConnection d).mp
  | PublicOp.getDatabase d => (mp.GetDatabase k d).mp
  | PublicOp.getBusyConnectionsCount _ => mp
  | PublicOp.getMaxConnections => mp
  | PublicOp.getMinConnections => mp
  | PublicOp.getOpenConnections _ => mp
  | PublicOp.getOpenConnectionsCount _ => mp
  | PublicOp.getPoolName => mp
  | PublicOp.getTimeOut => mp
  | PublicOp.setErrorOnBusy => mp.SetErrorOnBusy
  | PublicOp.setPoolSize a b => mp.SetPoolSize a b
  | PublicOp.terminateConnection conn => (mp.TerminateConnection conn).mp

/-- The pool after a finite sequence of interface calls, leftmost first. -/
def runPublic (k : Constants) (mp : MongoPool) (ops : List PublicOp) : MongoPool :=
  ops.foldl (PublicOp.step k) mp

/-- Whether the call is a call of `SetErrorOnBusy`. -/
def PublicOp.isSetErrorOnBusy : PublicOp → Bool
  | PublicOp.setErrorOnBusy => true
  | _ => false

/-- Whether the call is a call of `Init`. -/
def PublicOp.isInit : PublicOp → Bool
  | PublicOp.init _ => true
  | _ => false

/-! ## The exhaust-and-reuse scenario -/

/-- The four `CreateConnection` results of the scenario: a newly allocated
pool after `Init(name)` and `SetErrorOnBusy()`, three acquires, a release of
`c`, and a fourth acquire; `d1` to `d4` are the driver's answers during the
four acquires. -/
def exhaustScenario (k : Constants) (name : String) (d1 d2 d3 d4 : Driver) (c : ClientPtr) :
    List CreateResult :=
  let p0 := (MongoPool.Init k MongoPool.new name).SetErrorOnBusy
  let r1 := p0.CreateConnection d1
  let r2 := r1.mp.CreateConnection d2
  let r3 := r2.mp.CreateConnection d3
  let t := r3.mp.TerminateConnection c
  let r4 := t.mp.CreateConnection d4
  [r1, r2, r3, r4]

/-- The result of a `CreateConnection` that returns, rejected as busy, on the
pool `mp`, after the driver calls `calls`. -/
def busyResult (d : Driver) (mp : MongoPool) (calls : List DriverCall) : CreateResult :=
  { conn := ClientPtr.nil
    err := some (GoError.mongoPool { When := d.now, What := "All connections are busy" })
    mp := mp
    calls := calls
    panicked := false }

/-! ## Sample data -/

/-- A driver whose probes all succeed and whose connect yields client `n`. -/
def healthyDriver (n : Nat) : Driver :=
  { ping := fun _ => none
    newClient := (ClientPtr.ref n, none)
    connect := fun _ => none
    now := 0 }

/-- A driver whose probes all fail and whose connect yields client `n`. -/
def busyDriver (n : Nat) : Driver :=
  { ping := fun _ => some { code := 1 }
    newClient := (ClientPtr.ref n, none)
    connect := fun _ => none
    now := 7 }

/-- A driver whose probes all fail and whose connect reports error 9. -/
def connectFailDriver (n : Nat) : Driver :=
  { ping := fun _ => some { code := 1 }
    newClient := (ClientPtr.ref n, none)
    connect := fun _ => some { code := 9 }
    now := 7 }

/-- The pool after `Init` with default size 1 on a newly allocated pool and
one `CreateConnection` for which the driver builds and connects client 1: by
line 88 its entries are `[nil]`, and `poolSize` is 0. -/
def afterOneAcquire : MongoPool :=
  runOps (MongoPool.Init { DefaultDBPoolSize := 1, DBUrl := "mongodb://db", DBName := "blog" }
    MongoPool.new "root") [Op.createConnection (busyDriver 1)]

/-- Constants with the given default pool size. -/
def sampleConstants (size : Int) : Constants :=
  { DefaultDBPoolSize := size, DBUrl := "mongodb://db", DBName := "blog" }

/-- A pool with the given entries, capacity and policy. -/
def samplePool (entries : List ClientPtr) (size : Int) (busy : Bool) : MongoPool :=
  { name := "root", pool := entries, minConn := 0, maxConn := 2,
    raiseErrorOnBusy := busy, poolSize := size, timeout := 300000000000 }

/-! ## Auxiliary facts -/

theorem wrapInt_of_isGoInt {x : Int} (h : IsGoInt x) : wrapInt x = x := by
  unfold IsGoInt at h
  unfold wrapInt
  omega

theorem GetOpenConnections.scan_loop_live (d : Driver) (l : List ClientPtr) :
    ∀ (conns : List ClientPtr) (calls : List DriverCall), (∀ x ∈ l, x ≠ ClientPtr.nil) →
      GetOpenConnections.loop d l conns calls =
        { conns := conns ++ l.filter d.passes
          panicked := false
          calls := calls ++ l.map DriverCall.ping } := by
  induction l with
  | nil => intro conns calls _; simp [GetOpenConnections.loop]
  | cons a t ih =>
    intro conns calls h
    have ht : ∀ x ∈ t, x ≠ ClientPtr.nil := fun x hx => h x (by simp [hx])
    cases a with
    | nil => exact absurd rfl (h ClientPtr.nil (by simp))
    | ref n =>
      cases hp : d.ping n with
      | none => simp [GetOpenConnections.loop, hp, ih _ _ ht, Driver.passes, List.filter]
      | some e => simp [GetOpenConnections.loop, hp, ih _ _ ht, Driver.passes, List.filter]

theorem GetOpenConnections.scan_loop_panicked (d : Driver) (l : List ClientPtr) :
    ∀ (conns : List ClientPtr) (calls : List DriverCall),
      (GetOpenConnections.loop d l conns calls).panicked = true ↔ ClientPtr.nil ∈ l := by
  induction l with
  | nil => intro conns calls; simp [GetOpenConnections.loop]
  | cons a t ih =>
    intro conns calls
    cases a with
    | nil => simp [GetOpenConnections.loop]
    | ref n =>
      cases hp : d.ping n with
      | none => simp [GetOpenConnections.loop, hp, ih]
      | some e => simp [GetOpenConnections.loop, hp, ih]

theorem GetOpenConnections.loop_calls (d : Driver) (l : List ClientPtr) :
    ∀ (conns : List ClientPtr) (calls : List DriverCall),
      ∃ m, (GetOpenConnections.loop d l conns calls).calls =
        calls ++ (l.take m).map DriverCall.ping := by
  induction l with
  | nil => intro conns calls; exact ⟨0, by simp [GetOpenConnections.loop]⟩
  | cons a t ih =>
    intro conns calls
    cases a with
    | nil => exact ⟨1, by simp [GetOpenConnections.loop]⟩
    | ref n =>
      cases hp : d.ping n with
      | none =>
        obtain ⟨m, hm⟩ := ih (conns ++ [ClientPtr.ref n])
          (calls ++ [DriverCall.ping (ClientPtr.ref n)])
        exact ⟨m + 1, by simp [GetOpenConnections.loop, hp, hm]⟩
      | some e =>
        obtain ⟨m, hm⟩ := ih conns (calls ++ [DriverCall.ping (ClientPtr.ref n)])
        exact ⟨m + 1, by simp [GetOpenConnections.loop, hp, hm]⟩

theorem MongoPool.GetOpenConnections_live {d : Driver} {mp : MongoPool}
    (h : ∀ x ∈ mp.pool, x ≠ ClientPtr.nil) :
    mp.GetOpenConnections d =
      { conns := mp.pool.filter d.passes
        panicked := false
        calls := mp.pool.map DriverCall.ping } := by
  simp [MongoPool.GetOpenConnections, GetOpenConnections.scan_loop_live d mp.pool [] [] h]

theorem MongoPool.GetOpenConnections_panicked (d : Driver) (mp : MongoPool) :
    (mp.GetOpenConnections d).panicked = true ↔ ClientPtr.nil ∈ mp.pool :=
  GetOpenConnections.scan_loop_panicked d mp.pool [] []

theorem MongoPool.GetOpenConnections_only_pings (d : Driver) (mp : MongoPool) :
    DriverCall.newClient ∉ (mp.GetOpenConnections d).calls ∧
    ∀ c, DriverCall.connect c ∉ (mp.GetOpenConnections d).calls := by
  obtain ⟨m, hm⟩ := GetOpenConnections.loop_calls d mp.pool [] []
  unfold MongoPool.GetOpenConnections
  rw [hm]
  constructor
  · intro h
    simp only [List.nil_append, List.mem_map] at h
    obtain ⟨x, _, he⟩ := h
    cases he
  · intro c h
    simp only [List.nil_append, List.mem_map] at h
    obtain ⟨x, _, he⟩ := h
    cases he

theorem filter_passes_eq_nil {d : Driver} {l : List ClientPtr}
    (h : ∀ x ∈ l, d.passes x = false) : l.filter d.passes = [] := by
  rw [List.filter_eq_nil_iff]
  intro a ha
  simp [h a ha]

theorem MongoPool.CreateConnection_of_nil_mem {d : Driver} {mp : MongoPool}
    (h : ClientPtr.nil ∈ mp.pool) :
    mp.CreateConnection d =
      { conn := ClientPtr.nil, err := none, mp := mp,
        calls := (mp.GetOpenConnections d).calls, panicked := true } := by
  have hp := (MongoPool.GetOpenConnections_panicked d mp).mpr h
  simp [MongoPool.CreateConnection, hp]

theorem MongoPool.CreateConnection_panicked (d : Driver) (mp : MongoPool) :
    (mp.CreateConnection d).panicked = true ↔ ClientPtr.nil ∈ mp.pool := by
  constructor
  · intro h
    by_contra hn
    have hlive : ∀ x ∈ mp.pool, x ≠ ClientPtr.nil := fun x hx e => hn (e ▸ hx)
    have hscan := MongoPool.GetOpenConnections_live (d := d) hlive
    simp only [MongoPool.CreateConnection, hscan] at h
    revert h
    cases mp.pool.filter d.passes with
    | cons first more => simp
    | nil =>
      cases mp.raiseErrorOnBusy with
      | true => simp
      | false =>
        rcases d.newClient with ⟨conn, _ | e⟩
        · cases hc : d.connect conn with
          | some e2 => simp [hc]
          | none =>
            by_cases hp : mp.poolSize > 0
            · simp [hc, hp]
            · simp [hc, hp]
        · simp
  · intro h
    rw [MongoPool.CreateConnection_of_nil_mem h]

theorem TerminateConnection.loop_eq_erase (conn : ClientPtr) (mp : MongoPool) :
    ∀ (rest : List ClientPtr) (i : Nat),
      TerminateConnection.loop conn mp i rest =
        if conn ∈ rest then
          { mp with
            pool := mp.pool.take (i + rest.indexOf conn) ++
              mp.pool.drop (i + rest.indexOf conn + 1)
            poolSize := wrapInt (mp.poolSize + 1) }
        else mp := by
  intro rest
  induction rest with
  | nil => intro i; simp [TerminateConnection.loop]
  | cons v rest ih =>
    intro i
    by_cases hv : v = conn
    · subst hv
      simp [TerminateConnection.loop]
    · have hne : conn ≠ v := fun h => hv h.symm
      simp only [TerminateConnection.loop, hv, if_false, ih (i + 1), List.mem_cons, hne,
        false_or, List.indexOf_cons_ne rest hv]
      have harith : i + 1 + List.indexOf conn rest = i + (List.indexOf conn rest).succ := by
        omega
      rw [harith]

theorem MongoPool.TerminateConnection_of_mem {mp : MongoPool} {conn : ClientPtr}
    (h : conn ∈ mp.pool) :
    (mp.TerminateConnection conn).mp =
      { mp with pool := mp.pool.erase conn, poolSize := wrapInt (mp.poolSize + 1) } := by
  simp only [MongoPool.TerminateConnection, TerminateConnection.loop_eq_erase, h, if_true,
    Nat.zero_add]
  rw [← List.eraseIdx_eq_take_drop_succ, List.eraseIdx_indexOf_eq_erase]

theorem MongoPool.TerminateConnection_of_not_mem {mp : MongoPool} {conn : ClientPtr}
    (h : conn ∉ mp.pool) : (mp.TerminateConnection conn).mp = mp := by
  simp only [MongoPool.TerminateConnection, TerminateConnection.loop_eq_erase, h, if_false]

theorem MongoPool.CreateConnection_mp (d : Driver) (mp : MongoPool) :
    (mp.CreateConnection d).mp = mp ∨
    (0 < mp.poolSize ∧
      (mp.CreateConnection d).mp =
        { mp with pool := mp.pool ++ [ClientPtr.nil], poolSize := wrapInt (mp.poolSize - 1) }) := by
  by_cases hnil : ClientPtr.nil ∈ mp.pool
  · left
    rw [MongoPool.CreateConnection_of_nil_mem hnil]
  · have hlive : ∀ x ∈ mp.pool, x ≠ ClientPtr.nil := fun x hx e => hnil (e ▸ hx)
    have hscan := MongoPool.GetOpenConnections_live (d := d) hlive
    simp only [MongoPool.CreateConnection, hscan]
    cases mp.pool.filter d.passes with
    | cons first more => left; simp
    | nil =>
      cases mp.raiseErrorOnBusy with
      | true => left; simp
      | false =>
        rcases d.newClient with ⟨conn, _ | e⟩
        · cases hc : d.connect conn with
          | some e2 => simp [hc]
          | none =>
            by_cases hp : mp.poolSize > 0
            · right
              exact ⟨hp, by simp [hc, hp]⟩
            · left
              simp [hc, hp]
        · left; simp

theorem CapacityInv_Init (k : Constants) (hk : IsGoInt k.DefaultDBPoolSize) (name : String) :
    CapacityInv k (MongoPool.Init k MongoPool.new name) := by
  refine ⟨rfl, ?_, hk, fun h => h⟩
  simp [MongoPool.Init, MongoPool.new]

theorem CapacityInv_step (k : Constants) (hk : IsGoInt k.DefaultDBPoolSize) (mp : MongoPool)
    (op : Op) (h : CapacityInv k mp) : CapacityInv k (op.step mp) := by
  obtain ⟨hmax, hsum, hint, hnn⟩ := h
  cases op with
  | setErrorOnBusy => exact ⟨hmax, hsum, hint, hnn⟩
  | setPoolSize a b => exact ⟨hmax, hsum, hint, hnn⟩
  | createConnection d =>
    rcases MongoPool.CreateConnection_mp d mp with hsame | ⟨hpos, hnew⟩
    · simp only [Op.step, hsame]
      exact ⟨hmax, hsum, hint, hnn⟩
    · simp only [Op.step, hnew]
      have hw : wrapInt (mp.poolSize - 1) = mp.poolSize - 1 := by
        apply wrapInt_of_isGoInt
        unfold IsGoInt at hint ⊢
        omega
      refine ⟨hmax, ?_, ?_, ?_⟩
      · simp only [hw, List.length_append, List.length_singleton]
        push_cast
        omega
      · simp only [hw]
        unfold IsGoInt at hint ⊢
        omega
      · intro _
        simp only [hw]
        omega
  | terminateConnection c =>
    by_cases hc : c ∈ mp.pool
    · simp only [Op.step, MongoPool.TerminateConnection_of_mem hc]
      have hlen : 0 < mp.pool.length := List.length_pos_of_mem hc
      have hw : wrapInt (mp.poolSize + 1) = mp.poolSize + 1 := by
        apply wrapInt_of_isGoInt
        unfold IsGoInt at hint hk ⊢
        omega
      refine ⟨hmax, ?_, ?_, ?_⟩
      · simp only [hw, List.length_erase_of_mem hc]
        omega
      · simp only [hw]
        unfold IsGoInt at hint hk ⊢
        omega
      · intro h0
        have := hnn h0
        simp only [hw]
        omega
    · simp only [Op.step, MongoPool.TerminateConnection_of_not_mem hc]
      exact ⟨hmax, hsum, hint, hnn⟩

theorem CapacityInv_runOps (k : Constants) (hk : IsGoInt k.DefaultDBPoolSize) (ops : List Op) :
    ∀ mp : MongoPool, CapacityInv k mp → CapacityInv k (runOps mp ops) := by
  induction ops with
  | nil => intro mp h; exact h
  | cons op rest ih =>
    intro mp h
    exact ih (op.step mp) (CapacityInv_step k hk mp op h)

theorem GetOpenConnectionsCount.open_loop_live (d : Driver) (l : List ClientPtr) :
    ∀ acc : Int, (∀ x ∈ l, x ≠ ClientPtr.nil) → 0 ≤ acc → acc + l.length < intLimit →
      GetOpenConnectionsCount.loop d l acc =
        { count := acc + (l.filter d.passes).length, panicked := false } := by
  induction l with
  | nil => intro acc _ _ _; simp [GetOpenConnectionsCount.loop]
  | cons a t ih =>
    intro acc h h0 hlt
    have ht : ∀ x ∈ t, x ≠ ClientPtr.nil := fun x hx => h x (by simp [hx])
    simp only [List.length_cons, Nat.cast_add, Nat.cast_one] at hlt
    cases a with
    | nil => exact absurd rfl (h ClientPtr.nil (by simp))
    | ref n =>
      cases hp : d.ping n with
      | none =>
        have hw : wrapInt (acc + 1) = acc + 1 := by
          apply wrapInt_of_isGoInt
          unfold intLimit at hlt
          unfold IsGoInt
          omega
        simp only [GetOpenConnectionsCount.loop, hp, hw]
        rw [ih (acc + 1) ht (by omega) (by omega)]
        simp [List.filter, Driver.passes, hp]
        omega
      | some e =>
        simp only [GetOpenConnectionsCount.loop, hp]
        rw [ih acc ht h0 (by omega)]
        simp [List.filter, Driver.passes, hp]

theorem GetBusyConnectionsCount.busy_loop_live (d : Driver) (l : List ClientPtr) :
    ∀ acc : Int, (∀ x ∈ l, x ≠ ClientPtr.nil) → 0 ≤ acc → acc + l.length < intLimit →
      GetBusyConnectionsCount.loop d l acc =
        { count := acc + (l.filter (fun x => !d.passes x)).length, panicked := false } := by
  induction l with
  | nil => intro acc _ _ _; simp [GetBusyConnectionsCount.loop]
  | cons a t ih =>
    intro acc h h0 hlt
    have ht : ∀ x ∈ t, x ≠ ClientPtr.nil := fun x hx => h x (by simp [hx])
    simp only [List.length_cons, Nat.cast_add, Nat.cast_one] at hlt
    cases a with
    | nil => exact absurd rfl (h ClientPtr.nil (by simp))
    | ref n =>
      cases hp : d.ping n with
      | some e =>
        have hw : wrapInt (acc + 1) = acc + 1 := by
          apply wrapInt_of_isGoInt
          unfold intLimit at hlt
          unfold IsGoInt
          omega
        simp only [GetBusyConnectionsCount.loop, hp, hw]
        rw [ih (acc + 1) ht (by omega) (by omega)]
        simp [List.filter, Driver.passes, hp]
        omega
      | none =>
        simp only [GetBusyConnectionsCount.loop, hp]
        rw [ih acc ht h0 (by omega)]
        simp [List.filter, Driver.passes, hp]

theorem GetOpenConnectionsCount.open_loop_panicked (d : Driver) (l : List ClientPtr) :
    ∀ acc : Int, (GetOpenConnectionsCount.loop d l acc).panicked = true ↔ ClientPtr.nil ∈ l := by
  induction l with
  | nil => intro acc; simp [GetOpenConnectionsCount.loop]
  | cons a t ih =>
    intro acc
    cases a with
    | nil => simp [GetOpenConnectionsCount.loop]
    | ref n =>
      cases hp : d.ping n with
      | none => simp [GetOpenConnectionsCount.loop, hp, ih]
      | some e => simp [GetOpenConnectionsCount.loop, hp, ih]

theorem GetBusyConnectionsCount.busy_loop_panicked (d : Driver) (l : List ClientPtr) :
    ∀ acc : Int, (GetBusyConnectionsCount.loop d l acc).panicked = true ↔ ClientPtr.nil ∈ l := by
  induction l with
  | nil => intro acc; simp [GetBusyConnectionsCount.loop]
  | cons a t ih =>
    intro acc
    cases a with
    | nil => simp [GetBusyConnectionsCount.loop]
    | ref n =>
      cases hp : d.ping n with
      | none => simp [GetBusyConnectionsCount.loop, hp, ih]
      | some e => simp [GetBusyConnectionsCount.loop, hp, ih]

theorem filter_passes_add_fails (d : Driver) (l : List ClientPtr) :
    (l.filter d.passes).length + (l.filter (fun x => !d.passes x)).length = l.length := by
  induction l with
  | nil => rfl
  | cons a t ih =>
    cases hp : d.passes a with
    | true => simp [List.filter, hp]; omega
    | false => simp [List.filter, hp]; omega

theorem MongoPool.GetDatabase_mp (k : Constants) (d : Driver) (mp : MongoPool) :
    (mp.GetDatabase k d).mp = (mp.CreateConnection d).mp := by
  cases hp : (mp.CreateConnection d).panicked <;>
    cases h : (mp.CreateConnection d).err <;> simp [MongoPool.GetDatabase, h, hp]

theorem MongoPool.GetDatabase_calls (k : Constants) (d : Driver) (mp : MongoPool) :
    (mp.GetDatabase k d).calls = (mp.CreateConnection d).calls := by
  cases hp : (mp.CreateConnection d).panicked <;>
    cases h : (mp.CreateConnection d).err <;> simp [MongoPool.GetDatabase, h, hp]

theorem MongoPool.GetDatabase_panicked (k : Constants) (d : Driver) (mp : MongoPool) :
    (mp.GetDatabase k d).panicked = (mp.CreateConnection d).panicked := by
  cases hp : (mp.CreateConnection d).panicked <;>
    cases h : (mp.CreateConnection d).err <;> simp [MongoPool.GetDatabase, h, hp]

theorem MongoPool.CreateConnection_err_of_panicked {d : Driver} {mp : MongoPool}
    (h : (mp.CreateConnection d).panicked = true) : (mp.CreateConnection d).err = none := by
  have hnil := (MongoPool.CreateConnection_panicked d mp).mp h
  rw [MongoPool.CreateConnection_of_nil_mem hnil]

theorem MongoPool.GetDatabase_err (k : Constants) (d : Driver) (mp : MongoPool) :
    (mp.GetDatabase k d).err = (mp.CreateConnection d).err := by
  cases hp : (mp.CreateConnection d).panicked with
  | true =>
    rw [MongoPool.CreateConnection_err_of_panicked hp]
    simp [MongoPool.GetDatabase, hp]
  | false =>
    cases h : (mp.CreateConnection d).err <;> simp [MongoPool.GetDatabase, h, hp]

theorem MongoPool.GetDatabase_db (k : Constants) (d : Driver) (mp : MongoPool)
    (hp : (mp.CreateConnection d).panicked = false) :
    (mp.GetDatabase k d).db =
      match (mp.CreateConnection d).err with
      | some _ => none
      | none => some { client := (mp.CreateConnection d).conn, name := k.DBName } := by
  cases h : (mp.CreateConnection d).err <;> simp [MongoPool.GetDatabase, h, hp]

theorem MongoPool.CreateConnection_raise (d : Driver) (mp : MongoPool) :
    (mp.CreateConnection d).mp.raiseErrorOnBusy = mp.raiseErrorOnBusy := by
  rcases MongoPool.CreateConnection_mp d mp with h | ⟨_, h⟩ <;> rw [h]

theorem MongoPool.TerminateConnection_raise (mp : MongoPool) (c : ClientPtr) :
    (mp.TerminateConnection c).mp.raiseErrorOnBusy = mp.raiseErrorOnBusy := by
  by_cases hc : c ∈ mp.pool
  · rw [MongoPool.TerminateConnection_of_mem hc]
  · rw [MongoPool.TerminateConnection_of_not_mem hc]

theorem PublicOp.step_raise (k : Constants) (mp : MongoPool) (op : PublicOp)
    (h : op.isInit = false) :
    (op.step k mp).raiseErrorOnBusy = true ↔ mp.raiseErrorOnBusy = true ∨ op.isSetErrorOnBusy := by
  cases op <;>
    simp_all [PublicOp.step, PublicOp.isInit, PublicOp.isSetErrorOnBusy,
      MongoPool.GetDatabase_mp, MongoPool.CreateConnection_raise,
      MongoPool.TerminateConnection_raise, MongoPool.SetErrorOnBusy, MongoPool.SetPoolSize]

theorem runPublic_raise (k : Constants) (ops : List PublicOp)
    (h : ∀ op ∈ ops, op.isInit = false) :
    ∀ mp : MongoPool, mp.raiseErrorOnBusy = true →
      (runPublic k mp ops).raiseErrorOnBusy = true := by
  induction ops with
  | nil => intro mp hmp; exact hmp
  | cons op rest ih =>
    intro mp hmp
    have hop : op.isInit = false := h op (by simp)
    have hrest : ∀ o ∈ rest, o.isInit = false := fun o ho => h o (by simp [ho])
    exact ih hrest (op.step k mp) ((PublicOp.step_raise k mp op hop).mpr (Or.inl hmp))

theorem heap_set_last (heap : Heap) (x y : MongoPool) :
    (heap ++ [x]).set heap.length y = heap ++ [y] := by
  induction heap with
  | nil => rfl
  | cons a t ih => simp [List.set, ih]

theorem heap_getD_last (heap : Heap) (x : MongoPool) :
    (heap ++ [x]).getD heap.length MongoPool.new = x := by
  simp [List.getD]

theorem GetMongoPool_eq (k : Constants) (heap : Heap) (name : List String) :
    GetMongoPool k heap name =
      (heap.length, heap ++ [MongoPool.Init k MongoPool.new (name.headD "root")]) := by
  cases name with
  | nil => simp only [GetMongoPool, heap_getD_last, heap_set_last, List.headD]
  | cons first rest => simp only [GetMongoPool, heap_getD_last, heap_set_last, List.headD]

theorem CreateConnection_on_fresh (k : Constants) (d : Driver) (name : String) :
    ((MongoPool.Init k MongoPool.new name).CreateConnection d).panicked = false ∧
    ((MongoPool.Init k MongoPool.new name).CreateConnection d).calls.head? =
        some DriverCall.newClient ∧
    (∀ c, DriverCall.ping c ∉ ((MongoPool.Init k MongoPool.new name).CreateConnection d).calls) ∧
    (∀ pe, ((MongoPool.Init k MongoPool.new name).CreateConnection d).err ≠
        some (GoError.mongoPool pe)) ∧
    (∀ e, ((MongoPool.Init k MongoPool.new name).CreateConnection d).err =
        some (GoError.driver e) ↔
      (d.newClient.2 = some e ∨ (d.newClient.2 = none ∧ d.connect d.newClient.1 = some e))) := by
  have hopen : (MongoPool.Init k MongoPool.new name).GetOpenConnections d =
      { conns := [], panicked := false, calls := [] } := rfl
  have hraise : (MongoPool.Init k MongoPool.new name).raiseErrorOnBusy = false := rfl
  rcases hnew : d.newClient with ⟨conn, _ | e1⟩
  · cases hc : d.connect conn with
    | some e2 =>
      simp [MongoPool.CreateConnection, hopen, hraise, hnew, hc]
    | none =>
      by_cases hp : (MongoPool.Init k MongoPool.new name).poolSize > 0
      · simp [MongoPool.CreateConnection, hopen, hraise, hnew, hc, hp]
      · simp [MongoPool.CreateConnection, hopen, hraise, hnew, hc, hp]
  · simp [MongoPool.CreateConnection, hopen, hraise, hnew]

theorem GetCollection_eq (k : Constants) (d : Driver) (heap : Heap) (model : Model) :
    GetCollection k d heap model =
      match ((MongoPool.Init k MongoPool.new "root").GetDatabase k d).err,
        ((MongoPool.Init k MongoPool.new "root").GetDatabase k d).db with
      | some err, _ =>
        { ending := GetCollectionEnd.returned none (some err)
          heap := heap ++ [((MongoPool.Init k MongoPool.new "root").GetDatabase k d).mp]
          calls := ((MongoPool.Init k MongoPool.new "root").GetDatabase k d).calls }
      | none, none =>
        { ending := GetCollectionEnd.panicked
          heap := heap ++ [((MongoPool.Init k MongoPool.new "root").GetDatabase k d).mp]
          calls := ((MongoPool.Init k MongoPool.new "root").GetDatabase k d).calls }
      | none, some db =>
        match model with
        | Model.str modelString =>
          { ending := GetCollectionEnd.returned (some { db := db, name := modelString }) none
            heap := heap ++ [((MongoPool.Init k MongoPool.new "root").GetDatabase k d).mp]
            calls := ((MongoPool.Init k MongoPool.new "root").GetDatabase k d).calls }
        | Model.typed typeName =>
          { ending := GetCollectionEnd.returned (some { db := db, name := typeName }) none
            heap := heap ++ [((MongoPool.Init k MongoPool.new "root").GetDatabase k d).mp]
            calls := ((MongoPool.Init k MongoPool.new "root").GetDatabase k d).calls }
        | Model.nilValue =>
          { ending := GetCollectionEnd.panicked
            heap := heap ++ [((MongoPool.Init k MongoPool.new "root").GetDatabase k d).mp]
            calls := ((MongoPool.Init k MongoPool.new "root").GetDatabase k d).calls } := by
  unfold GetCollection
  rw [GetMongoPool_eq]
  simp only [heap_getD_last, heap_set_last, List.headD]

/-- C1. Tracked creation as the code performs it: when every entry is a client
whose probe fails, `raiseErrorOnBusy` is false, `poolSize > 0` and the driver
connects with a non-nil session `s`, `CreateConnection` returns `(s, nil)` and
lowers `poolSize` by one, but the element appended to the entries is the nil
named result `c` of line 88, so the new entries differ from the old entries
followed by `s`. -/
theorem CreateConnection_tracked_appends_nil (d : Driver) (mp : MongoPool) (s : ClientPtr)
    (hlive : ∀ x ∈ mp.pool, x ≠ ClientPtr.nil)
    (hbusy : ∀ x ∈ mp.pool, d.passes x = false)
    (hraise : mp.raiseErrorOnBusy = false)
    (hsize : 0 < mp.poolSize)
    (hnew : d.newClient = (s, none))
    (hconn : d.connect s = none)
    (hs : s ≠ ClientPtr.nil) :
    (mp.CreateConnection d).panicked = false ∧
    (mp.CreateConnection d).conn = s ∧
    (mp.CreateConnection d).err = none ∧
    (mp.CreateConnection d).mp.pool = mp.pool ++ [ClientPtr.nil] ∧
    (mp.CreateConnection d).mp.pool ≠ mp.pool ++ [s] ∧
    (mp.CreateConnection d).mp.poolSize = wrapInt (mp.poolSize - 1) ∧
    (IsGoInt mp.poolSize → (mp.CreateConnection d).mp.poolSize = mp.poolSize - 1) := by
  have hscan := MongoPool.GetOpenConnections_live (d := d) hlive
  have hopen := filter_passes_eq_nil hbusy
  have hpos : mp.poolSize > 0 := hsize
  simp only [MongoPool.CreateConnection, hscan, hopen, hraise, hnew, hconn, hpos]
  refine ⟨by simp, by simp, by simp, by simp, ?_, by simp, ?_⟩
  · simpa using fun h => hs h.symm
  · intro hr
    apply wrapInt_of_isGoInt
    unfold IsGoInt at hr ⊢
    omega

/-- C1, at a concrete input: an empty pool with `poolSize = 1` and a driver
that connects with client 1 ends with entries `[nil]`, not `[client 1]`. -/
theorem CreateConnection_tracked_appends_nil_witness :
    ((samplePool [] 1 false).CreateConnection (busyDriver 1)).panicked = false ∧
    ((samplePool [] 1 false).CreateConnection (busyDriver 1)).conn = ClientPtr.ref 1 ∧
    ((samplePool [] 1 false).CreateConnection (busyDriver 1)).err = none ∧
    ((samplePool [] 1 false).CreateConnection (busyDriver 1)).mp.pool = [] ++ [ClientPtr.nil] ∧
    ((samplePool [] 1 false).CreateConnection (busyDriver 1)).mp.pool ≠ [] ++ [ClientPtr.ref 1] ∧
    ((samplePool [] 1 false).CreateConnection (busyDriver 1)).mp.poolSize = wrapInt (1 - 1) ∧
    (IsGoInt 1 → ((samplePool [] 1 false).CreateConnection (busyDriver 1)).mp.poolSize = 1 - 1) :=
  CreateConnection_tracked_appends_nil (busyDriver 1) (samplePool [] 1 false) (ClientPtr.ref 1)
    (by simp [samplePool]) (by simp [samplePool]) rfl (by decide) rfl rfl (by decide)

/-- C3. Busy rejection and where the code misses it.  When no entry is nil,
no entry passes the probe (an empty pool included) and `raiseErrorOnBusy` is
true, `CreateConnection` returns the nil connection with a `MongoPoolError`
whose `What` is "All connections are busy" and whose `When` is the current
time, calls the driver only for the probes and leaves the pool unchanged; and
whenever it returns a `MongoPoolError`, no entry passed the probe and
`raiseErrorOnBusy` was true.  When an entry is nil, as after any tracked
creation (line 88), no entry passes the probe either, but the call panics in
the scan and returns no `MongoPoolError`, whatever `raiseErrorOnBusy` is. -/
theorem CreateConnection_busy_rejection (d : Driver) (mp : MongoPool) :
    ((∀ x ∈ mp.pool, x ≠ ClientPtr.nil) → (∀ x ∈ mp.pool, d.passes x = false) →
      mp.raiseErrorOnBusy = true →
      (mp.CreateConnection d).panicked = false ∧
      (mp.CreateConnection d).conn = ClientPtr.nil ∧
      (mp.CreateConnection d).err =
        some (GoError.mongoPool { When := d.now, What := "All connections are busy" }) ∧
      (mp.CreateConnection d).calls = mp.pool.map DriverCall.ping ∧
      DriverCall.newClient ∉ (mp.CreateConnection d).calls ∧
      (∀ c, DriverCall.connect c ∉ (mp.CreateConnection d).calls) ∧
      (mp.CreateConnection d).mp = mp) ∧
    ((∃ pe, (mp.CreateConnection d).err = some (GoError.mongoPool pe)) →
      (∀ x ∈ mp.pool, d.passes x = false) ∧ mp.raiseErrorOnBusy = true) ∧
    (ClientPtr.nil ∈ mp.pool →
      (mp.CreateConnection d).panicked = true ∧
      (∀ pe, (mp.CreateConnection d).err ≠ some (GoError.mongoPool pe)) ∧
      (mp.CreateConnection d).mp = mp) := by
  refine ⟨?_, ?_, ?_⟩
  · intro hlive hbusy hraise
    have hscan := MongoPool.GetOpenConnections_live (d := d) hlive
    have hopen := filter_passes_eq_nil hbusy
    simp [MongoPool.CreateConnection, hscan, hopen, hraise]
  · rintro ⟨pe, hpe⟩
    have hnil : ClientPtr.nil ∉ mp.pool := fun hm => by
      rw [MongoPool.CreateConnection_of_nil_mem hm] at hpe
      simp at hpe
    have hlive : ∀ x ∈ mp.pool, x ≠ ClientPtr.nil := fun x hx e => hnil (e ▸ hx)
    have hscan := MongoPool.GetOpenConnections_live (d := d) hlive
    simp only [MongoPool.CreateConnection, hscan] at hpe
    cases hopen : mp.pool.filter d.passes with
    | cons first more => simp [hopen] at hpe
    | nil =>
      have hall : ∀ x ∈ mp.pool, d.passes x = false := by
        intro x hx
        have := (List.filter_eq_nil_iff.mp hopen) x hx
        simpa using this
      refine ⟨hall, ?_⟩
      cases hraise : mp.raiseErrorOnBusy with
      | true => rfl
      | false =>
        exfalso
        rw [hopen] at hpe
        rcases hnew : d.newClient with ⟨conn, _ | e⟩
        · cases hc : d.connect conn with
          | some e2 => simp [hraise, hnew, hc] at hpe
          | none =>
            by_cases hp : mp.poolSize > 0
            · simp [hraise, hnew, hc, hp] at hpe
            · simp [hraise, hnew, hc, hp] at hpe
        · simp [hraise, hnew] at hpe
  · intro hm
    rw [MongoPool.CreateConnection_of_nil_mem hm]
    simp

/-- C3, at the failing input: after `Init` with default size 1, one acquire
and `SetErrorOnBusy`, the entries are `[nil]`, no entry passes the probe and
the policy is set, but `CreateConnection` panics instead of returning the busy
`MongoPoolError`. -/
theorem CreateConnection_busy_rejection_witness :
    (afterOneAcquire.SetErrorOnBusy).pool = [ClientPtr.nil] ∧
    (∀ x ∈ (afterOneAcquire.SetErrorOnBusy).pool, (busyDriver 2).passes x = false) ∧
    (afterOneAcquire.SetErrorOnBusy).raiseErrorOnBusy = true ∧
    ((afterOneAcquire.SetErrorOnBusy).CreateConnection (busyDriver 2)).panicked = true ∧
    (∀ pe, ((afterOneAcquire.SetErrorOnBusy).CreateConnection (busyDriver 2)).err ≠
      some (GoError.mongoPool pe)) ∧
    ((afterOneAcquire.SetErrorOnBusy).CreateConnection (busyDriver 2)).mp =
      afterOneAcquire.SetErrorOnBusy :=
  ⟨by decide, by decide, by decide,
   (CreateConnection_busy_rejection (busyDriver 2) afterOneAcquire.SetErrorOnBusy).2.2
    (by decide)⟩

/-- C4. Connect failure and where the code misses it.  When no entry is nil,
no entry passes the probe and `raiseErrorOnBusy` is false, if building the
client fails with error `e`, or the client is built and connecting it fails
with error `e`, then `CreateConnection` returns the nil connection with
exactly the error `e` and the pool is as before the call.  When an entry is
nil, as after any tracked creation (line 88), the call panics in the scan
before the driver is asked for a client: it returns no error, and the pool is
as before. -/
theorem CreateConnection_connect_failure (d : Driver) (mp : MongoPool) (e : DriverError) :
    ((∀ x ∈ mp.pool, x ≠ ClientPtr.nil) → (∀ x ∈ mp.pool, d.passes x = false) →
      mp.raiseErrorOnBusy = false →
      (d.newClient.2 = some e ∨ (d.newClient.2 = none ∧ d.connect d.newClient.1 = some e)) →
      (mp.CreateConnection d).panicked = false ∧
      (mp.CreateConnection d).conn = ClientPtr.nil ∧
      (mp.CreateConnection d).err = some (GoError.driver e) ∧
      (mp.CreateConnection d).mp = mp ∧
      (mp.CreateConnection d).mp.pool = mp.pool ∧
      (mp.CreateConnection d).mp.poolSize = mp.poolSize) ∧
    (ClientPtr.nil ∈ mp.pool →
      (mp.CreateConnection d).panicked = true ∧
      (mp.CreateConnection d).err ≠ some (GoError.driver e) ∧
      DriverCall.newClient ∉ (mp.CreateConnection d).calls ∧
      (∀ c, DriverCall.connect c ∉ (mp.CreateConnection d).calls) ∧
      (mp.CreateConnection d).mp = mp) := by
  refine ⟨?_, ?_⟩
  · intro hlive hbusy hraise hfail
    have hscan := MongoPool.GetOpenConnections_live (d := d) hlive
    have hopen := filter_passes_eq_nil hbusy
    rcases hnew : d.newClient with ⟨conn, _ | e1⟩
    · rw [hnew] at hfail
      rcases hfail with h | ⟨_, h⟩
      · simp at h
      · simp only at h
        simp [MongoPool.CreateConnection, hscan, hopen, hraise, hnew, h]
    · rw [hnew] at hfail
      rcases hfail with h | ⟨h, _⟩
      · simp only [Option.some.injEq] at h
        subst h
        simp [MongoPool.CreateConnection, hscan, hopen, hraise, hnew]
      · simp at h
  · intro hm
    have hpings := MongoPool.GetOpenConnections_only_pings d mp
    rw [MongoPool.CreateConnection_of_nil_mem hm]
    exact ⟨rfl, by simp, hpings.1, hpings.2, rfl⟩

/-- C4, at the failing input: after `Init` with default size 1 and one
acquire, the entries are `[nil]` and no entry passes the probe; with a driver
whose connect fails with error 9, `CreateConnection` panics instead of
returning that error. -/
theorem CreateConnection_connect_failure_witness :
    afterOneAcquire.pool = [ClientPtr.nil] ∧
    (∀ x ∈ afterOneAcquire.pool, (connectFailDriver 2).passes x = false) ∧
    afterOneAcquire.raiseErrorOnBusy = false ∧
    (connectFailDriver 2).connect (connectFailDriver 2).newClient.1 = some { code := 9 } ∧
    (afterOneAcquire.CreateConnection (connectFailDriver 2)).panicked = true ∧
    (afterOneAcquire.CreateConnection (connectFailDriver 2)).err ≠
      some (GoError.driver { code := 9 }) ∧
    DriverCall.newClient ∉ (afterOneAcquire.CreateConnection (connectFailDriver 2)).calls ∧
    (∀ c, DriverCall.connect c ∉ (afterOneAcquire.CreateConnection (connectFailDriver 2)).calls) ∧
    (afterOneAcquire.CreateConnection (connectFailDriver 2)).mp = afterOneAcquire :=
  ⟨by decide, by decide, by decide, rfl,
   (CreateConnection_connect_failure (connectFailDriver 2) afterOneAcquire { code := 9 }).2
    (by decide)⟩

/-- C5. Untracked overflow and where the code misses it.  When no entry is
nil, no entry passes the probe, `raiseErrorOnBusy` is false, `poolSize` is 0
and the driver connects with a session `s`, `CreateConnection` returns
`(s, nil)` and leaves the pool unchanged: `s` is not added to the entries and
`poolSize` is still 0.  When an entry is nil, as after any tracked creation
(line 88), the call panics in the scan and returns no session. -/
theorem CreateConnection_untracked_overflow (d : Driver) (mp : MongoPool) (s : ClientPtr) :
    ((∀ x ∈ mp.pool, x ≠ ClientPtr.nil) → (∀ x ∈ mp.pool, d.passes x = false) →
      mp.raiseErrorOnBusy = false → mp.poolSize = 0 → d.newClient = (s, none) →
      d.connect s = none →
      (mp.CreateConnection d).panicked = false ∧
      (mp.CreateConnection d).conn = s ∧
      (mp.CreateConnection d).err = none ∧
      (mp.CreateConnection d).mp = mp ∧
      (mp.CreateConnection d).mp.pool = mp.pool ∧
      (mp.CreateConnection d).mp.poolSize = 0) ∧
    (ClientPtr.nil ∈ mp.pool →
      (mp.CreateConnection d).panicked = true ∧
      DriverCall.newClient ∉ (mp.CreateConnection d).calls ∧
      (∀ c, DriverCall.connect c ∉ (mp.CreateConnection d).calls) ∧
      (mp.CreateConnection d).mp = mp) := by
  refine ⟨?_, ?_⟩
  · intro hlive hbusy hraise hsize hnew hconn
    have hscan := MongoPool.GetOpenConnections_live (d := d) hlive
    have hopen := filter_passes_eq_nil hbusy
    simp [MongoPool.CreateConnection, hscan, hopen, hraise, hnew, hconn, hsize]
  · intro hm
    have hpings := MongoPool.GetOpenConnections_only_pings d mp
    rw [MongoPool.CreateConnection_of_nil_mem hm]
    exact ⟨rfl, hpings.1, hpings.2, rfl⟩

/-- C5, at the failing input: after `Init` with default size 1 and one
acquire, the entries are `[nil]`, no entry passes the probe and `poolSize` is
0; with a driver that would connect client 2, `CreateConnection` panics
instead of returning client 2. -/
theorem CreateConnection_untracked_overflow_witness :
    afterOneAcquire.pool = [ClientPtr.nil] ∧
    (∀ x ∈ afterOneAcquire.pool, (busyDriver 2).passes x = false) ∧
    afterOneAcquire.raiseErrorOnBusy = false ∧
    afterOneAcquire.poolSize = 0 ∧
    (busyDriver 2).newClient = (ClientPtr.ref 2, none) ∧
    (busyDriver 2).connect (ClientPtr.ref 2) = none ∧
    (afterOneAcquire.CreateConnection (busyDriver 2)).panicked = true ∧
    DriverCall.newClient ∉ (afterOneAcquire.CreateConnection (busyDriver 2)).calls ∧
    (∀ c, DriverCall.connect c ∉ (afterOneAcquire.CreateConnection (busyDriver 2)).calls) ∧
    (afterOneAcquire.CreateConnection (busyDriver 2)).mp = afterOneAcquire :=
  ⟨by decide, by decide, by decide, by decide, rfl, rfl,
   (CreateConnection_untracked_overflow (busyDriver 2) afterOneAcquire (ClientPtr.ref 2)).2
    (by decide)⟩

/-! ## TerminateConnection -/

/-- C6. Release of a tracked connection: when `c` occurs in the entries,
`TerminateConnection(c)` erases the element at the least index holding `c`:
the old entries split as `before ++ c :: after` with `c` not in `before`, and
the new entries are `before ++ after`, so every other element keeps its place
in the order and the length drops by exactly 1 however often `c` occurs.
`poolSize` is incremented by 1 (Go's `++` on a 64-bit `int`, which is
`poolSize + 1` unless `poolSize` is the largest `int`), no other field
changes, and the one driver call is `Disconnect` on `c`. -/
theorem TerminateConnection_tracked (mp : MongoPool) (c : ClientPtr) (h : c ∈ mp.pool) :
    (∃ before after, mp.pool = before ++ c :: after ∧ c ∉ before ∧
      before.length = mp.pool.indexOf c ∧
      (mp.TerminateConnection c).mp.pool = before ++ after) ∧
    (mp.TerminateConnection c).mp.pool = mp.pool.eraseIdx (mp.pool.indexOf c) ∧
    (mp.TerminateConnection c).mp.pool.length + 1 = mp.pool.length ∧
    (mp.TerminateConnection c).mp.poolSize = wrapInt (mp.poolSize + 1) ∧
    (IsGoInt mp.poolSize → mp.poolSize + 1 < intLimit →
      (mp.TerminateConnection c).mp.poolSize = mp.poolSize + 1) ∧
    (mp.TerminateConnection c).mp =
      { mp with pool := (mp.TerminateConnection c).mp.pool,
                poolSize := (mp.TerminateConnection c).mp.poolSize } ∧
    (mp.TerminateConnection c).calls = [DriverCall.disconnect c] := by
  have hres := MongoPool.TerminateConnection_of_mem h
  rw [hres]
  refine ⟨?_, ?_, ?_, rfl, ?_, rfl, rfl⟩
  · obtain ⟨l₁, l₂, hnot, hsplit, herase⟩ := List.exists_erase_eq h
    refine ⟨l₁, l₂, hsplit, hnot, ?_, herase⟩
    rw [hsplit]
    clear hsplit herase h hres
    induction l₁ with
    | nil => simp
    | cons a t ih =>
      have hat : a ≠ c := fun e => hnot (by simp [e])
      have hct : c ∉ t := fun e => hnot (by simp [e])
      rw [List.cons_append, List.indexOf_cons_ne _ hat, ← ih hct]
      rfl
  · simp
  · simp only [List.length_erase_of_mem h]
    have : 0 < mp.pool.length := List.length_pos_of_mem h
    omega
  · intro hr hlt
    apply wrapInt_of_isGoInt
    unfold IsGoInt at hr ⊢
    unfold intLimit at hlt
    omega

/-- C6, at a concrete input: client 1 occurs twice; only its first occurrence
goes. -/
theorem TerminateConnection_tracked_witness :
    ClientPtr.ref 1 ∈ (samplePool [ClientPtr.ref 2, ClientPtr.ref 1, ClientPtr.ref 1] 0 false).pool ∧
    ((samplePool [ClientPtr.ref 2, ClientPtr.ref 1, ClientPtr.ref 1] 0 false).TerminateConnection
      (ClientPtr.ref 1)).mp.pool =
      (samplePool [ClientPtr.ref 2, ClientPtr.ref 1, ClientPtr.ref 1] 0 false).pool.eraseIdx
        ((samplePool [ClientPtr.ref 2, ClientPtr.ref 1, ClientPtr.ref 1] 0 false).pool.indexOf
          (ClientPtr.ref 1)) ∧
    ((samplePool [ClientPtr.ref 2, ClientPtr.ref 1, ClientPtr.ref 1] 0 false).TerminateConnection
      (ClientPtr.ref 1)).mp.pool = [ClientPtr.ref 2, ClientPtr.ref 1] ∧
    ((samplePool [ClientPtr.ref 2, ClientPtr.ref 1, ClientPtr.ref 1] 0 false).TerminateConnection
      (ClientPtr.ref 1)).mp.poolSize = 1 :=
  ⟨by simp [samplePool],
   (TerminateConnection_tracked
      (samplePool [ClientPtr.ref 2, ClientPtr.ref 1, ClientPtr.ref 1] 0 false) (ClientPtr.ref 1)
      (by simp [samplePool])).2.1,
   by decide, by decide⟩

/-- C7. Release of an untracked connection: when `c` does not occur in the
entries, `TerminateConnection(c)` leaves every field of the pool unchanged and
still issues `Disconnect` on `c`; and when `c` occurs exactly once, a second
`TerminateConnection(c)` right after the first changes nothing, so `poolSize`
has been incremented once, not twice. -/
theorem TerminateConnection_untracked (mp : MongoPool) (c : ClientPtr) :
    (c ∉ mp.pool →
      (mp.TerminateConnection c).mp = mp ∧
      (mp.TerminateConnection c).mp.pool = mp.pool ∧
      (mp.TerminateConnection c).mp.poolSize = mp.poolSize ∧
      (mp.TerminateConnection c).calls = [DriverCall.disconnect c]) ∧
    (mp.pool.count c = 1 →
      ((mp.TerminateConnection c).mp.TerminateConnection c).mp = (mp.TerminateConnection c).mp ∧
      ((mp.TerminateConnection c).mp.TerminateConnection c).mp.poolSize =
        wrapInt (mp.poolSize + 1) ∧
      ((mp.TerminateConnection c).mp.TerminateConnection c).calls =
        [DriverCall.disconnect c]) := by
  constructor
  · intro h
    rw [MongoPool.TerminateConnection_of_not_mem h]
    exact ⟨rfl, rfl, rfl, rfl⟩
  · intro hcount
    have hmem : c ∈ mp.pool := by
      apply List.count_pos_iff.mp
      omega
    have h1 := MongoPool.TerminateConnection_of_mem hmem
    have hgone : c ∉ (mp.TerminateConnection c).mp.pool := by
      rw [h1]
      apply List.count_eq_zero.mp
      simp [hcount]
    refine ⟨MongoPool.TerminateConnection_of_not_mem hgone, ?_, rfl⟩
    rw [MongoPool.TerminateConnection_of_not_mem hgone, h1]

/-- C7, at a concrete input: client 9 is not among the entries; client 1
occurs once and is released twice. -/
theorem TerminateConnection_untracked_witness :
    (ClientPtr.ref 9 ∉ (samplePool [ClientPtr.ref 1, ClientPtr.ref 2] 0 false).pool ∧
      ((samplePool [ClientPtr.ref 1, ClientPtr.ref 2] 0 false).TerminateConnection
        (ClientPtr.ref 9)).mp = samplePool [ClientPtr.ref 1, ClientPtr.ref 2] 0 false) ∧
    ((samplePool [ClientPtr.ref 1, ClientPtr.ref 2] 0 false).pool.count (ClientPtr.ref 1) = 1 ∧
      (((samplePool [ClientPtr.ref 1, ClientPtr.ref 2] 0 false).TerminateConnection
        (ClientPtr.ref 1)).mp.TerminateConnection (ClientPtr.ref 1)).mp.poolSize =
        wrapInt (0 + 1)) :=
  ⟨⟨by simp [samplePool],
    ((TerminateConnection_untracked (samplePool [ClientPtr.ref 1, ClientPtr.ref 2] 0 false)
      (ClientPtr.ref 9)).1 (by simp [samplePool])).1⟩,
   ⟨by decide,
    ((TerminateConnection_untracked (samplePool [ClientPtr.ref 1, ClientPtr.ref 2] 0 false)
      (ClientPtr.ref 1)).2 (by decide)).2.1⟩⟩

/-! ## Acquire followed by release -/

/-- C9. Capacity accounting: the default pool size being an `int` value, in
every state reached from a newly allocated pool by `Init` followed by any
finite sequence of `CreateConnection`, `TerminateConnection` (any argument),
`SetErrorOnBusy` and `SetPoolSize` calls, whatever the driver answers in each
call, `poolSize + len(entries) == maxConn`. -/
theorem capacity_accounting (k : Constants) (hk : IsGoInt k.DefaultDBPoolSize) (name : String)
    (ops : List Op) :
    (poolAfter k name ops).poolSize + (poolAfter k name ops).pool.length =
      (poolAfter k name ops).maxConn :=
  (CapacityInv_runOps k hk ops _ (CapacityInv_Init k hk name)).2.1

/-- C9, at a concrete input: default size 2, two acquires and one release. -/
theorem capacity_accounting_witness :
    IsGoInt (Constants.mk 2 "mongodb://db" "blog").DefaultDBPoolSize ∧
    (poolAfter (Constants.mk 2 "mongodb://db" "blog") "root"
        [Op.createConnection (busyDriver 1), Op.createConnection (busyDriver 2),
         Op.terminateConnection ClientPtr.nil]).poolSize +
      (poolAfter (Constants.mk 2 "mongodb://db" "blog") "root"
        [Op.createConnection (busyDriver 1), Op.createConnection (busyDriver 2),
         Op.terminateConnection ClientPtr.nil]).pool.length =
      (poolAfter (Constants.mk 2 "mongodb://db" "blog") "root"
        [Op.createConnection (busyDriver 1), Op.createConnection (busyDriver 2),
         Op.terminateConnection ClientPtr.nil]).maxConn :=
  ⟨by decide,
   capacity_accounting (Constants.mk 2 "mongodb://db" "blog") (by decide) "root"
    [Op.createConnection (busyDriver 1), Op.createConnection (busyDriver 2),
     Op.terminateConnection ClientPtr.nil]⟩

/-- C10. Size bound: the default pool size being a non-negative `int` value,
in every state reached from a newly allocated pool by `Init` followed by any
finite sequence of calls (`CreateConnection` and `TerminateConnection` with
any arguments and driver answers, and the two setters as well),
`len(entries) <= maxConn` and `0 <= poolSize <= maxConn`. -/
theorem size_bound (k : Constants) (hk : IsGoInt k.DefaultDBPoolSize)
    (hnn : 0 ≤ k.DefaultDBPoolSize) (name : String) (ops : List Op) :
    ((poolAfter k name ops).pool.length : Int) ≤ (poolAfter k name ops).maxConn ∧
    0 ≤ (poolAfter k name ops).poolSize ∧
    (poolAfter k name ops).poolSize ≤ (poolAfter k name ops).maxConn := by
  obtain ⟨hmax, hsum, _, hpos⟩ := CapacityInv_runOps k hk ops _ (CapacityInv_Init k hk name)
  have h0 := hpos hnn
  refine ⟨?_, h0, ?_⟩
  · unfold poolAfter at *
    omega
  · unfold poolAfter at *
    omega

/-- C10, at a concrete input: default size 1, two acquires (the second finds
no capacity) and one release. -/
theorem size_bound_witness :
    (IsGoInt (Constants.mk 1 "mongodb://db" "blog").DefaultDBPoolSize ∧
      0 ≤ (Constants.mk 1 "mongodb://db" "blog").DefaultDBPoolSize) ∧
    ((poolAfter (Constants.mk 1 "mongodb://db" "blog") "root"
        [Op.createConnection (busyDriver 1), Op.createConnection (busyDriver 2),
         Op.terminateConnection (ClientPtr.ref 1)]).pool.length : Int) ≤
      (poolAfter (Constants.mk 1 "mongodb://db" "blog") "root"
        [Op.createConnection (busyDriver 1), Op.createConnection (busyDriver 2),
         Op.terminateConnection (ClientPtr.ref 1)]).maxConn ∧
    0 ≤ (poolAfter (Constants.mk 1 "mongodb://db" "blog") "root"
        [Op.createConnection (busyDriver 1), Op.createConnection (busyDriver 2),
         Op.terminateConnection (ClientPtr.ref 1)]).poolSize ∧
    (poolAfter (Constants.mk 1 "mongodb://db" "blog") "root"
        [Op.createConnection (busyDriver 1), Op.createConnection (busyDriver 2),
         Op.terminateConnection (ClientPtr.ref 1)]).poolSize ≤
      (poolAfter (Constants.mk 1 "mongodb://db" "blog") "root"
        [Op.createConnection (busyDriver 1), Op.createConnection (busyDriver 2),
         Op.terminateConnection (ClientPtr.ref 1)]).maxConn :=
  ⟨⟨by decide, by decide⟩,
   size_bound (Constants.mk 1 "mongodb://db" "blog") (by decide) (by decide) "root"
    [Op.createConnection (busyDriver 1), Op.createConnection (busyDriver 2),
     Op.terminateConnection (ClientPtr.ref 1)]⟩

/-! ## Liveness accounting -/

/-- C11. The scan `GetOpenConnections` and where it fails.  When no entry is
nil, the scan returns the entries whose probe succeeds, in their order in
the entries: an entry is in the result exactly when it is an entry whose probe
succeeded, the result is a sublist of the entries, and the driver calls are
one probe per entry.  In every case the pool (entries and `poolSize` included)
is the same after the call.  When an entry is nil, as after any tracked
creation (line 88), the scan panics and returns no slice. -/
theorem GetOpenConnections_order_preserving_filter (k : Constants) (d : Driver)
    (mp : MongoPool) :
    ((∀ x ∈ mp.pool, x ≠ ClientPtr.nil) →
      (mp.GetOpenConnections d).panicked = false ∧
      (mp.GetOpenConnections d).conns = mp.pool.filter d.passes ∧
      (∀ x, x ∈ (mp.GetOpenConnections d).conns ↔ x ∈ mp.pool ∧ d.passes x = true) ∧
      (mp.GetOpenConnections d).conns.Sublist mp.pool ∧
      (mp.GetOpenConnections d).calls = mp.pool.map DriverCall.ping) ∧
    ((PublicOp.getOpenConnections d).step k mp = mp ∧
      ((PublicOp.getOpenConnections d).step k mp).pool = mp.pool ∧
      ((PublicOp.getOpenConnections d).step k mp).poolSize = mp.poolSize) ∧
    (ClientPtr.nil ∈ mp.pool → (mp.GetOpenConnections d).panicked = true) := by
  refine ⟨?_, ⟨rfl, rfl, rfl⟩, (MongoPool.GetOpenConnections_panicked d mp).mpr⟩
  intro hlive
  rw [MongoPool.GetOpenConnections_live hlive]
  refine ⟨rfl, rfl, ?_, List.filter_sublist mp.pool, rfl⟩
  intro x
  simp [List.mem_filter]

/-- C11, at the failing input: after `Init` with default size 1 and one
acquire the entries are `[nil]`, and `GetOpenConnections` panics at its first
probe instead of returning the empty selection. -/
theorem GetOpenConnections_order_preserving_filter_witness :
    afterOneAcquire.pool = [ClientPtr.nil] ∧
    (afterOneAcquire.GetOpenConnections (healthyDriver 2)).panicked = true ∧
    (afterOneAcquire.GetOpenConnections (healthyDriver 2)).calls =
      [DriverCall.ping ClientPtr.nil] :=
  ⟨by decide,
   (GetOpenConnections_order_preserving_filter (sampleConstants 1) (healthyDriver 2)
      afterOneAcquire).2.2 (by decide),
   by decide⟩

/-- C12. Open and busy counts, and where they fail.  When no entry is nil,
with the same probe outcome for each entry in both scans and the number of
entries an `int` value as the length of a Go slice is, both counts return,
`GetOpenConnectionsCount()` plus `GetBusyConnectionsCount()` is
`len(entries)`, the first is the number of entries whose probe succeeds, which
is `len(GetOpenConnections())`, and the second the number of entries whose
probe fails.  When an entry is nil, as after any tracked creation (line 88),
both counts panic and return nothing. -/
theorem open_busy_counts_partition (d : Driver) (mp : MongoPool) :
    ((∀ x ∈ mp.pool, x ≠ ClientPtr.nil) → (mp.pool.length : Int) < intLimit →
      (mp.GetOpenConnectionsCount d).panicked = false ∧
      (mp.GetBusyConnectionsCount d).panicked = false ∧
      (mp.GetOpenConnectionsCount d).count + (mp.GetBusyConnectionsCount d).count =
        mp.pool.length ∧
      (mp.GetOpenConnectionsCount d).count = (mp.GetOpenConnections d).conns.length ∧
      (mp.GetOpenConnectionsCount d).count = mp.pool.countP d.passes ∧
      (mp.GetBusyConnectionsCount d).count = mp.pool.countP (fun x => !d.passes x)) ∧
    (ClientPtr.nil ∈ mp.pool →
      (mp.GetOpenConnectionsCount d).panicked = true ∧
      (mp.GetBusyConnectionsCount d).panicked = true) := by
  constructor
  · intro hlive hlen
    have hopen := GetOpenConnectionsCount.open_loop_live d mp.pool 0 hlive (le_refl 0)
      (by simpa using hlen)
    have hbusy := GetBusyConnectionsCount.busy_loop_live d mp.pool 0 hlive (le_refl 0)
      (by simpa using hlen)
    have hsum := filter_passes_add_fails d mp.pool
    simp only [zero_add] at hopen hbusy
    unfold MongoPool.GetOpenConnectionsCount MongoPool.GetBusyConnectionsCount
    rw [hopen, hbusy, MongoPool.GetOpenConnections_live hlive]
    refine ⟨rfl, rfl, ?_, rfl, ?_, ?_⟩
    · show ((mp.pool.filter d.passes).length : Int) +
        ((mp.pool.filter (fun x => !d.passes x)).length : Int) = mp.pool.length
      omega
    · show ((mp.pool.filter d.passes).length : Int) = mp.pool.countP d.passes
      rw [List.countP_eq_length_filter]
    · show ((mp.pool.filter (fun x => !d.passes x)).length : Int) =
        mp.pool.countP (fun x => !d.passes x)
      rw [List.countP_eq_length_filter]
  · intro hm
    exact ⟨(GetOpenConnectionsCount.open_loop_panicked d mp.pool 0).mpr hm,
      (GetBusyConnectionsCount.busy_loop_panicked d mp.pool 0).mpr hm⟩

/-- C12, at the failing input: after `Init` with default size 1 and one
acquire the entries are `[nil]`, one entry in all, and both counts panic
instead of returning numbers that add up to 1. -/
theorem open_busy_counts_partition_witness :
    afterOneAcquire.pool = [ClientPtr.nil] ∧
    (afterOneAcquire.GetOpenConnectionsCount (busyDriver 2)).panicked = true ∧
    (afterOneAcquire.GetBusyConnectionsCount (busyDriver 2)).panicked = true :=
  ⟨by decide,
   (open_busy_counts_partition (busyDriver 2) afterOneAcquire).2 (by decide)⟩

/-! ## The exhaust-and-reuse scenario -/

/-- C13, counterexample. With default pool size 2, after `Init` and
`SetErrorOnBusy` the pool has `maxConn = poolSize = 2`, and with a driver whose
connects and probes always succeed the first `CreateConnection` of the
scenario does not succeed: it returns the busy `MongoPoolError`. -/
theorem exhaust_scenario_first_acquire_busy :
    ((MongoPool.Init (sampleConstants 2) MongoPool.new "root").SetErrorOnBusy).maxConn = 2 ∧
    ((MongoPool.Init (sampleConstants 2) MongoPool.new "root").SetErrorOnBusy).poolSize = 2 ∧
    ((exhaustScenario (sampleConstants 2) "root" (healthyDriver 1) (healthyDriver 2)
        (healthyDriver 3) (healthyDriver 4) (ClientPtr.ref 1)).head?.map CreateResult.err) =
      some (some (GoError.mongoPool { When := 0, What := "All connections are busy" })) ∧
    ((exhaustScenario (sampleConstants 2) "root" (healthyDriver 1) (healthyDriver 2)
        (healthyDriver 3) (healthyDriver 4) (ClientPtr.ref 1)).head?.map CreateResult.err) ≠
      some none := by
  decide

/-- C13, amended. With default pool size 2, the pool after `Init` and
`SetErrorOnBusy` has `maxConn = poolSize = 2`, no entries and the policy set;
whatever the driver would answer and whichever connection is released, each
of the four `CreateConnection` calls of the scenario returns the nil connection
with the busy `MongoPoolError`, makes no driver call, and leaves the pool as
it was after `SetErrorOnBusy`. -/
theorem exhaust_scenario_all_busy (k : Constants) (hk : k.DefaultDBPoolSize = 2)
    (name : String) (d1 d2 d3 d4 : Driver) (c : ClientPtr) :
    ((MongoPool.Init k MongoPool.new name).SetErrorOnBusy).maxConn = 2 ∧
    ((MongoPool.Init k MongoPool.new name).SetErrorOnBusy).poolSize = 2 ∧
    ((MongoPool.Init k MongoPool.new name).SetErrorOnBusy).pool = [] ∧
    ((MongoPool.Init k MongoPool.new name).SetErrorOnBusy).raiseErrorOnBusy = true ∧
    exhaustScenario k name d1 d2 d3 d4 c =
      [busyResult d1 ((MongoPool.Init k MongoPool.new name).SetErrorOnBusy) [],
       busyResult d2 ((MongoPool.Init k MongoPool.new name).SetErrorOnBusy) [],
       busyResult d3 ((MongoPool.Init k MongoPool.new name).SetErrorOnBusy) [],
       busyResult d4 ((MongoPool.Init k MongoPool.new name).SetErrorOnBusy) []] := by
  have hbusy : ∀ d : Driver,
      ((MongoPool.Init k MongoPool.new name).SetErrorOnBusy).CreateConnection d =
        busyResult d ((MongoPool.Init k MongoPool.new name).SetErrorOnBusy) [] := by
    intro d
    simp [MongoPool.CreateConnection, MongoPool.GetOpenConnections, GetOpenConnections.loop,
      MongoPool.SetErrorOnBusy, MongoPool.Init, MongoPool.new, busyResult]
  have hterm : (((MongoPool.Init k MongoPool.new name).SetErrorOnBusy).TerminateConnection c).mp =
      (MongoPool.Init k MongoPool.new name).SetErrorOnBusy :=
    MongoPool.TerminateConnection_of_not_mem (by
      simp [MongoPool.SetErrorOnBusy, MongoPool.Init, MongoPool.new])
  refine ⟨?_, ?_, rfl, rfl, ?_⟩
  · simp [MongoPool.SetErrorOnBusy, MongoPool.Init, hk]
  · simp [MongoPool.SetErrorOnBusy, MongoPool.Init, hk]
  · unfold exhaustScenario
    simp only [hbusy, busyResult, hterm]

/-- C13, amended, at a concrete input: default size 2 and a driver whose
connects and probes always succeed. -/
theorem exhaust_scenario_all_busy_witness :
    (sampleConstants 2).DefaultDBPoolSize = 2 ∧
    exhaustScenario (sampleConstants 2) "root" (healthyDriver 1) (healthyDriver 2)
        (healthyDriver 3) (healthyDriver 4) (ClientPtr.ref 1) =
      [busyResult (healthyDriver 1)
          ((MongoPool.Init (sampleConstants 2) MongoPool.new "root").SetErrorOnBusy) [],
       busyResult (healthyDriver 2)
          ((MongoPool.Init (sampleConstants 2) MongoPool.new "root").SetErrorOnBusy) [],
       busyResult (healthyDriver 3)
          ((MongoPool.Init (sampleConstants 2) MongoPool.new "root").SetErrorOnBusy) [],
       busyResult (healthyDriver 4)
          ((MongoPool.Init (sampleConstants 2) MongoPool.new "root").SetErrorOnBusy) []] :=
  ⟨rfl,
   (exhaust_scenario_all_busy (sampleConstants 2) rfl "root" (healthyDriver 1) (healthyDriver 2)
      (healthyDriver 3) (healthyDriver 4) (ClientPtr.ref 1)).2.2.2.2⟩

/-! ## Init -/

/-- C14. Postcondition of `Init`: for every name `n`, after `Init(n)` on a
newly allocated pool, `GetPoolName()` is `n`, `GetMaxConnections()` and
`poolSize` are the default pool size constant, `raiseErrorOnBusy` is false and
`GetTimeOut()` is 5 minutes, that is 300 seconds or 300 * 10^9 nanoseconds. -/
theorem Init_postcondition (k : Constants) (n : String) :
    (MongoPool.Init k MongoPool.new n).GetPoolName = n ∧
    (MongoPool.Init k MongoPool.new n).GetMaxConnections = k.DefaultDBPoolSize ∧
    (MongoPool.Init k MongoPool.new n).poolSize = k.DefaultDBPoolSize ∧
    (MongoPool.Init k MongoPool.new n).raiseErrorOnBusy = false ∧
    (MongoPool.Init k MongoPool.new n).GetTimeOut = 300 * timeSecond ∧
    (MongoPool.Init k MongoPool.new n).GetTimeOut = 300 * 10 ^ 9 ∧
    IsGoInt (MongoPool.Init k MongoPool.new n).GetTimeOut := by
  refine ⟨rfl, rfl, rfl, rfl, ?_, ?_, ?_⟩
  · simp [MongoPool.GetTimeOut, MongoPool.Init, timeSecond]
  · simp [MongoPool.GetTimeOut, MongoPool.Init, timeSecond]
  · simp only [MongoPool.GetTimeOut, MongoPool.Init, timeSecond, IsGoInt]
    omega

/-- C15, counterexample. On a pool with one entry, `minConn = 0`, a reduced
`poolSize` and the busy policy set, `Init("root")` gives a state different from
`Init("root")` on a newly allocated pool, and its entries are not empty. -/
theorem Init_keeps_entries_counterexample :
    MongoPool.Init (sampleConstants 2) (samplePool [ClientPtr.ref 1] 1 true) "root" ≠
      MongoPool.Init (sampleConstants 2) MongoPool.new "root" ∧
    (MongoPool.Init (sampleConstants 2) (samplePool [ClientPtr.ref 1] 1 true) "root").pool ≠ [] := by
  decide

/-- C15, amended. For every pool `p` and name `n`, `Init(n)` gives `name`,
`poolSize`, `maxConn`, `raiseErrorOnBusy` and `timeout` the values they get on
a newly allocated pool, whatever they were in `p`, and leaves `entries` and
`minConn` as they are in `p`; so the result equals that of `Init(n)` on a
newly allocated pool exactly when `p` has no entries and `minConn = 0`. -/
theorem Init_resets_five_fields (k : Constants) (p : MongoPool) (n : String) :
    MongoPool.Init k p n =
      { MongoPool.Init k MongoPool.new n with pool := p.pool, minConn := p.minConn } ∧
    (MongoPool.Init k p n).pool = p.pool ∧
    (MongoPool.Init k p n).minConn = p.minConn ∧
    (MongoPool.Init k p n = MongoPool.Init k MongoPool.new n ↔ p.pool = [] ∧ p.minConn = 0) := by
  refine ⟨rfl, rfl, rfl, ?_⟩
  constructor
  · intro h
    have h1 := congrArg MongoPool.pool h
    have h2 := congrArg MongoPool.minConn h
    exact ⟨h1, h2⟩
  · rintro ⟨h1, h2⟩
    simp [MongoPool.Init, MongoPool.new, h1, h2]

/-! ## Policy setters -/

/-- C16, counterexample. On a pool where `SetErrorOnBusy` has just set the
policy, the one interface call `Init("root")` leaves `raiseErrorOnBusy` false. -/
theorem busy_policy_unset_by_Init_counterexample :
    ((samplePool [] 2 false).SetErrorOnBusy).raiseErrorOnBusy = true ∧
    (runPublic (sampleConstants 2) ((samplePool [] 2 false).SetErrorOnBusy)
      [PublicOp.init "root"]).raiseErrorOnBusy = false := by
  decide

/-- C16, amended. `SetErrorOnBusy` sets `raiseErrorOnBusy` to true and changes
no other field; after it, `raiseErrorOnBusy` is still true after any finite
sequence of interface calls that contains no `Init` (`CreateConnection`,
`GetDatabase`, the accessors, the scan and the counts, `SetErrorOnBusy`,
`SetPoolSize`, `TerminateConnection`); a call of `Init` sets it to false. -/
theorem busy_policy_persists_without_Init (k : Constants) (mp : MongoPool)
    (ops : List PublicOp) :
    mp.SetErrorOnBusy = { mp with raiseErrorOnBusy := true } ∧
    (mp.SetErrorOnBusy).raiseErrorOnBusy = true ∧
    ((∀ op ∈ ops, op.isInit = false) →
      (runPublic k mp.SetErrorOnBusy ops).raiseErrorOnBusy = true) ∧
    (∀ n : String,
      ((PublicOp.init n).step k (runPublic k mp.SetErrorOnBusy ops)).raiseErrorOnBusy = false) :=
  ⟨rfl, rfl, fun h => runPublic_raise k ops h mp.SetErrorOnBusy rfl, fun _ => rfl⟩

/-- C16, amended, at a concrete input: an acquire, a database access, a count,
a release and a `SetPoolSize` after `SetErrorOnBusy`. -/
theorem busy_policy_persists_without_Init_witness :
    (∀ op ∈ [PublicOp.createConnection (healthyDriver 1), PublicOp.getDatabase (busyDriver 2),
        PublicOp.getOpenConnectionsCount (healthyDriver 1),
        PublicOp.terminateConnection ClientPtr.nil, PublicOp.setPoolSize 1 5],
      op.isInit = false) ∧
    (runPublic (sampleConstants 2) (samplePool [ClientPtr.ref 1] 1 false).SetErrorOnBusy
      [PublicOp.createConnection (healthyDriver 1), PublicOp.getDatabase (busyDriver 2),
        PublicOp.getOpenConnectionsCount (healthyDriver 1),
        PublicOp.terminateConnection ClientPtr.nil,
        PublicOp.setPoolSize 1 5]).raiseErrorOnBusy = true :=
  ⟨by simp [PublicOp.isInit],
   (busy_policy_persists_without_Init (sampleConstants 2) (samplePool [ClientPtr.ref 1] 1 false)
      [PublicOp.createConnection (healthyDriver 1), PublicOp.getDatabase (busyDriver 2),
        PublicOp.getOpenConnectionsCount (healthyDriver 1),
        PublicOp.terminateConnection ClientPtr.nil, PublicOp.setPoolSize 1 5]).2.2.1
      (by simp [PublicOp.isInit])⟩

/-- C17. The method `SetPoolSize` is a no-op: for every pool and every pair of
arguments the pool after `SetPoolSize(min, max)` is the pool before it, so
`GetMinConnections()`, `GetMaxConnections()`, `poolSize` and the entries are
the same before and after. -/
theorem SetPoolSize_noop (mp : MongoPool) (minConn maxConn : Nat) :
    mp.SetPoolSize minConn maxConn = mp ∧
    (mp.SetPoolSize minConn maxConn).GetMinConnections = mp.GetMinConnections ∧
    (mp.SetPoolSize minConn maxConn).GetMaxConnections = mp.GetMaxConnections ∧
    (mp.SetPoolSize minConn maxConn).poolSize = mp.poolSize ∧
    (mp.SetPoolSize minConn maxConn).pool = mp.pool :=
  ⟨rfl, rfl, rfl, rfl, rfl⟩

/-! ## Exclusive hand-out -/

/-- C19. The factory `GetMongoPool`: for every argument list `names` the pool
at the returned address is `Init(n)` applied to a newly allocated pool, where
`n` is "root" when `names` is empty and `names[0]` otherwise, later names
being ignored; its entries are empty and `raiseErrorOnBusy` is false.  The
returned address is new (it is not an address of the heap before the call and
the pools of that heap are untouched), so a second call returns a different
address, leaves the first pool as it is, and a later change of the second pool
does not change the first. -/
theorem GetMongoPool_factory (k : Constants) (heap : Heap) (names names2 : List String)
    (first : String) (rest : List String) (x : MongoPool) :
    (GetMongoPool k heap names).2[(GetMongoPool k heap names).1]? =
      some (MongoPool.Init k MongoPool.new (names.headD "root")) ∧
    (GetMongoPool k heap []).2[(GetMongoPool k heap []).1]? =
      some (MongoPool.Init k MongoPool.new "root") ∧
    (GetMongoPool k heap (first :: rest)).2[(GetMongoPool k heap (first :: rest)).1]? =
      some (MongoPool.Init k MongoPool.new first) ∧
    GetMongoPool k heap (first :: rest) = GetMongoPool k heap [first] ∧
    ((GetMongoPool k heap names).2.getD (GetMongoPool k heap names).1 MongoPool.new).pool = [] ∧
    ((GetMongoPool k heap names).2.getD (GetMongoPool k heap names).1
      MongoPool.new).raiseErrorOnBusy = false ∧
    (GetMongoPool k heap names).1 = heap.length ∧
    (∀ i, i < heap.length → (GetMongoPool k heap names).2[i]? = heap[i]?) ∧
    (GetMongoPool k (GetMongoPool k heap names).2 names2).1 ≠ (GetMongoPool k heap names).1 ∧
    (GetMongoPool k (GetMongoPool k heap names).2 names2).2[(GetMongoPool k heap names).1]? =
      (GetMongoPool k heap names).2[(GetMongoPool k heap names).1]? ∧
    ((GetMongoPool k (GetMongoPool k heap names).2 names2).2.set
        (GetMongoPool k (GetMongoPool k heap names).2 names2).1 x)[(GetMongoPool k heap names).1]? =
      (GetMongoPool k heap names).2[(GetMongoPool k heap names).1]? := by
  simp only [GetMongoPool_eq, List.headD]
  refine ⟨by simp, by simp, by simp, trivial, ?_, ?_, trivial, ?_, ?_, ?_, ?_⟩
  · simp [heap_getD_last, MongoPool.Init, MongoPool.new]
  · simp [heap_getD_last, MongoPool.Init, MongoPool.new]
  · intro i hi
    simp [List.getElem?_append_left hi]
  · simp
  · rw [List.getElem?_append_left (by simp)]
  · rw [List.getElem?_set_ne (by simp), List.getElem?_append_left (by simp)]

/-- C20. The function `GetCollection` never reuses a pooled connection: it
runs `GetDatabase` on the pool that `GetMongoPool()` has just produced, so for
every argument its first driver call builds a new client and it probes
nothing; it never ends with the busy `MongoPoolError`; it returns
`(nil, e)` exactly when building the client fails with `e` or the client is
built and its connect fails with `e`, and every error it returns comes with a
nil collection.  `GetDatabase`, on any pool, ends with the error of its
`CreateConnection` call, a nil one included, panics exactly when that call
panics, and, when that call returns, returns a nil database exactly when the
error is not nil. -/
theorem GetCollection_never_reuses (k : Constants) (d : Driver) (heap : Heap) (model : Model) :
    (GetCollection k d heap model).calls =
      (((GetMongoPool k heap []).2.getD (GetMongoPool k heap []).1 MongoPool.new).GetDatabase
        k d).calls ∧
    (GetCollection k d heap model).calls.head? = some DriverCall.newClient ∧
    (∀ c, DriverCall.ping c ∉ (GetCollection k d heap model).calls) ∧
    (∀ coll pe, (GetCollection k d heap model).ending ≠
      GetCollectionEnd.returned coll (some (GoError.mongoPool pe))) ∧
    (∀ e, (GetCollection k d heap model).ending =
        GetCollectionEnd.returned none (some (GoError.driver e)) ↔
      (d.newClient.2 = some e ∨ (d.newClient.2 = none ∧ d.connect d.newClient.1 = some e))) ∧
    (∀ coll err, (GetCollection k d heap model).ending =
      GetCollectionEnd.returned coll (some err) → coll = none) ∧
    (∀ mp : MongoPool, (mp.GetDatabase k d).err = (mp.CreateConnection d).err) ∧
    (∀ mp : MongoPool, (mp.GetDatabase k d).panicked = (mp.CreateConnection d).panicked) ∧
    (∀ mp : MongoPool, (mp.CreateConnection d).panicked = false →
      ((mp.GetDatabase k d).db = none ↔ (mp.CreateConnection d).err ≠ none)) := by
  obtain ⟨hpan, hhead, hping, hbusy, hfail⟩ := CreateConnection_on_fresh k d "root"
  have herr := MongoPool.GetDatabase_err k d (MongoPool.Init k MongoPool.new "root")
  have hcalls := MongoPool.GetDatabase_calls k d (MongoPool.Init k MongoPool.new "root")
  have hdb := MongoPool.GetDatabase_db k d (MongoPool.Init k MongoPool.new "root") hpan
  have hpool : (GetMongoPool k heap []).2.getD (GetMongoPool k heap []).1 MongoPool.new =
      MongoPool.Init k MongoPool.new "root" := by
    rw [GetMongoPool_eq]
    exact heap_getD_last heap _
  rw [hpool, GetCollection_eq, herr, hcalls, hdb]
  refine ⟨?_, ?_, ?_, ?_, ?_, ?_, ?_, ?_, ?_⟩
  · cases h : ((MongoPool.Init k MongoPool.new "root").CreateConnection d).err with
    | some err => rfl
    | none => cases model <;> rfl
  · cases h : ((MongoPool.Init k MongoPool.new "root").CreateConnection d).err with
    | some err => exact hhead
    | none => cases model <;> exact hhead
  · intro c
    cases h : ((MongoPool.Init k MongoPool.new "root").CreateConnection d).err with
    | some err => exact hping c
    | none => cases model <;> exact hping c
  · intro coll pe
    cases h : ((MongoPool.Init k MongoPool.new "root").CreateConnection d).err with
    | some err =>
      intro heq
      simp only [GetCollectionEnd.returned.injEq, Option.some.injEq] at heq
      exact hbusy pe (h.trans (congrArg some heq.2))
    | none => cases model <;> simp
  · intro e
    rw [← hfail e]
    cases h : ((MongoPool.Init k MongoPool.new "root").CreateConnection d).err with
    | some err => simp
    | none => cases model <;> simp
  · intro coll err
    cases h : ((MongoPool.Init k MongoPool.new "root").CreateConnection d).err with
    | some err2 =>
      intro heq
      simp only [GetCollectionEnd.returned.injEq] at heq
      exact heq.1.symm
    | none => cases model <;> simp
  · intro mp
    exact MongoPool.GetDatabase_err k d mp
  · intro mp
    exact MongoPool.GetDatabase_panicked k d mp
  · intro mp hp
    rw [MongoPool.GetDatabase_db k d mp hp]
    cases h : (mp.CreateConnection d).err <;> simp

end MongoPoolModel
